import Mathlib

/-!
# Verification of the `jobscript` repository

Shallow embedding, in Lean 4, of the decision logic of the five automation
scripts of the repository:

* `enhanced_naukri_applier.py`   (namespace `Enhanced`)
* `naukri_job_applier.py`        (namespace `NJA`)
* `apply_naukri_jobs.py`         (namespace `ANJ`)
* `scripts/naukri_auto_apply.py` (namespace `SNAA`)
* `naukri_auto_apply.py`         (namespace `RNAA`)

Browser interaction (Selenium / Playwright) is modelled by records of the
observations each function reads from the page: a field of type
`Except PyExn _` stands for a page query that either returns a value or
raises.  Pure string manipulation (regex search of the concrete patterns
of the scripts, `urllib.parse.urlsplit`, `urllib.parse.parse_qs`) is
translated faithfully from CPython (3.10 semantics), restricted to ASCII
case mapping, as documented on each definition.
-/

/-- A Python exception, as far as the control flow of these scripts is
concerned: the scripts only branch on *whether* an exception was raised,
never on its class (every handler is `except Exception` or bare `except`,
apart from `NoSuchElementException` handlers that behave like the generic
ones). -/
inductive PyExn
  | nameError
  | noSuchElement
  | timeout
  | generic
deriving DecidableEq, Repr

deriving instance DecidableEq for Except

/-! ## String helpers

The scripts compare lowercased ASCII text; Python's `str.lower` is
modelled by `Char.toLower` (ASCII case mapping), which agrees with Python
on every string appearing in the scripts' pattern lists. -/

/-- `str.lower()` on the character list of a string (ASCII case map). -/
def lowerChars (s : String) : List Char :=
  s.data.map Char.toLower

/-- `str.lower()` returning a string (ASCII case map). -/
def lowerStr (s : String) : String :=
  String.mk (lowerChars s)

/-- `pat` is a prefix of `s` (Python `s.startswith(pat)` at position 0). -/
def prefAt : List Char → List Char → Bool
  | [], _ => true
  | _ :: _, [] => false
  | p :: ps, c :: cs => p == c && prefAt ps cs

/-- `pat in s` for Python strings: `pat` occurs contiguously in `s`. -/
def subOccurs (pat : List Char) : List Char → Bool
  | [] => prefAt pat []
  | c :: cs => prefAt pat (c :: cs) || subOccurs pat cs

/-- There is a decomposition `s = gap ++ b ++ rest` where every character
of `gap` is not a newline: the continuation of a Python regex match
`a.*b` after `a` has been consumed (`.` does not match `'\n'`). -/
def gapThen (b : List Char) : List Char → Bool
  | [] => prefAt b []
  | c :: cs => prefAt b (c :: cs) || (c != '\n' && gapThen b cs)

/-- `re.search(a + ".*" + b, s)` succeeds for literal fragments `a`, `b`:
some position of `s` starts with `a`, followed (after a newline-free gap)
by `b`. -/
def patMatch2 (a b : List Char) : List Char → Bool
  | [] => prefAt a [] && gapThen b []
  | c :: cs =>
    (prefAt a (c :: cs) && gapThen b ((c :: cs).drop a.length)) || patMatch2 a b cs

/-- Split a character list at the first occurrence of `d`
(Python `s.split(d, 1)` when `d` occurs); `none` when `d` is absent. -/
def splitAtFirst (d : Char) : List Char → Option (List Char × List Char)
  | [] => none
  | c :: cs =>
    if c == d then some ([], cs)
    else (splitAtFirst d cs).map (fun p => (c :: p.1, p.2))

/-- Split at every occurrence of `d` (Python `s.split(d)`). -/
def splitAll (d : Char) : List Char → List (List Char)
  | [] => [[]]
  | c :: cs =>
    if c == d then [] :: splitAll d cs
    else
      match splitAll d cs with
      | [] => [[c]]
      | g :: gs => (c :: g) :: gs

/-! ## `urllib.parse.urlsplit` and `urllib.parse.parse_qs`

Modelled from CPython 3.10 `urllib/parse.py`.  Omitted (they raise only on
exotic unicode netlocs, which none of the claims exercises): the NFKC
check of `_checknetloc`.  The bracket consistency check that raises
`ValueError("Invalid IPv6 URL")` is kept, since it is the exception path
of `EnhancedNaukriJobApplier.is_external_application`. -/

/-- CPython: `url.lstrip(_WHATWG_C0_CONTROL_OR_SPACE)` — strip leading
characters with code point at most 0x20. -/
def stripLeadC0 : List Char → List Char
  | [] => []
  | c :: cs => if c.toNat ≤ 0x20 then stripLeadC0 cs else c :: cs

/-- CPython: removal of `_UNSAFE_URL_BYTES_TO_REMOVE` (tab, CR, LF) from
the whole URL. -/
def removeUnsafe (l : List Char) : List Char :=
  l.filter (fun c => !(c == '\t' || c == '\r' || c == '\n'))

/-- CPython `scheme_chars`: ASCII letters, digits, `+`, `-`, `.`. -/
def isSchemeChar (c : Char) : Bool :=
  c.isAlpha || c.isDigit || c == '+' || c == '-' || c == '.'

/-- First character exists and is an ASCII letter
(CPython: `url[0].isascii() and url[0].isalpha()`). -/
def headIsAlpha : List Char → Bool
  | [] => false
  | c :: _ => c.isAlpha

/-- CPython `_splitnetloc`: take characters up to the first of
`/`, `?`, `#`; return the netloc and the remainder (delimiter kept). -/
def takeUntilDelims : List Char → List Char × List Char
  | [] => ([], [])
  | c :: cs =>
    if c == '/' || c == '?' || c == '#' then ([], c :: cs)
    else
      match takeUntilDelims cs with
      | (a, b) => (c :: a, b)

/-- CPython `urlsplit` tail: split off the fragment at the first `#`, then
the query at the first `?`; returns `(path, query, fragment)`. -/
def splitFragQuery (l : List Char) : List Char × List Char × List Char :=
  let fr := match splitAtFirst '#' l with
    | some p => p
    | none => (l, [])
  let pq := match splitAtFirst '?' fr.1 with
    | some p => p
    | none => (fr.1, [])
  (pq.1, pq.2, fr.2)

/-- The result record of `urllib.parse.urlsplit` (the script only reads
`netloc` and `query`; the other components are kept for fidelity). -/
structure SplitResult where
  scheme : String
  netloc : String
  path : String
  query : String
  fragment : String
deriving DecidableEq, Repr

/-- `urllib.parse.urlsplit(url)` (equivalently the first five components
of `urlparse`, which the script uses): strip leading C0 controls and
space, remove tab/CR/LF, split off a scheme when the prefix before the
first `:` is a well-formed scheme, take the netloc after `//` up to the
first `/?#` (raising `ValueError("Invalid IPv6 URL")` when exactly one of
`[`, `]` occurs in it), then split fragment and query. -/
def pyUrlsplit (url : String) : Except String SplitResult :=
  let l := removeUnsafe (stripLeadC0 url.data)
  let schemeRest : List Char × List Char :=
    match splitAtFirst ':' l with
    | some (before, after) =>
      if !before.isEmpty && headIsAlpha before && before.all isSchemeChar then
        (before.map Char.toLower, after)
      else ([], l)
    | none => ([], l)
  let netRest : List Char × List Char :=
    match schemeRest.2 with
    | '/' :: '/' :: tl => takeUntilDelims tl
    | rest => ([], rest)
  if (netRest.1.contains '[') != (netRest.1.contains ']') then
    Except.error "Invalid IPv6 URL"
  else
    match splitFragQuery netRest.2 with
    | (p, q, fr) =>
      Except.ok
        { scheme := String.mk schemeRest.1
          netloc := String.mk netRest.1
          path := String.mk p
          query := String.mk q
          fragment := String.mk fr }

/-- Hexadecimal digit value. -/
def hexVal (c : Char) : Option Nat :=
  if '0' ≤ c ∧ c ≤ '9' then some (c.toNat - '0'.toNat)
  else if 'a' ≤ c ∧ c ≤ 'f' then some (c.toNat - 'a'.toNat + 10)
  else if 'A' ≤ c ∧ c ≤ 'F' then some (c.toNat - 'A'.toNat + 10)
  else none

/-- `urllib.parse.unquote` restricted to single-byte sequences: `%XX`
with `XX < 0x80` decodes to the ASCII character, a byte `≥ 0x80` to
U+FFFD.  (CPython decodes runs of `%XX` as UTF-8; the two agree on every
key the script compares against — `redirect` and `external` are pure
ASCII, and a multi-byte sequence never decodes to an ASCII character.) -/
def pyUnquote : List Char → List Char
  | '%' :: h1 :: h2 :: rest =>
    match hexVal h1, hexVal h2 with
    | some a, some b =>
      (if 16 * a + b < 0x80 then Char.ofNat (16 * a + b) else '�') :: pyUnquote rest
    | _, _ => '%' :: pyUnquote (h1 :: h2 :: rest)
  | c :: cs => c :: pyUnquote cs
  | [] => []

/-- The keys of `urllib.parse.parse_qs(query)` (with the default
`keep_blank_values=False`, `separator='&'`): split the query on `&`,
keep fields that have an `=` sign and a non-empty value, replace `+` by
space in the name and percent-decode it. -/
def parse_qs_keys (query : List Char) : List String :=
  (splitAll '&' query).filterMap fun field =>
    if field.isEmpty then none
    else
      match splitAtFirst '=' field with
      | none => none
      | some (name, value) =>
        if value.isEmpty then none
        else some (String.mk (pyUnquote (name.map (fun c => if c == '+' then ' ' else c))))

/-! ## `enhanced_naukri_applier.py` -/

namespace Enhanced

/-- One of the regex literals of `self.external_patterns`
(`EnhancedNaukriJobApplier.__init__`, lines 68–79): each is either a
literal word or two literal fragments joined by `.*`.  `src` is the
regex source text (used in the reason string). -/
structure ExtPat where
  src : String
  first : String
  second : Option String
deriving DecidableEq, Repr

/-- `re.search(p, s, re.IGNORECASE)` for the concrete patterns of the
script, evaluated on the already-lowercased character list `s` (the
pattern literals are lowercase ASCII, so IGNORECASE search equals plain
search on the lowercased subject). -/
def ExtPat.research (p : ExtPat) (s : List Char) : Bool :=
  match p.second with
  | none => subOccurs p.first.data s
  | some b => patMatch2 p.first.data b.data s

/-- `self.external_patterns` (lines 68–79), in source order. -/
def external_patterns : List ExtPat :=
  [ ⟨"redirect.*external", "redirect", some "external"⟩,
    ⟨"apply.*external", "apply", some "external"⟩,
    ⟨"careers.*company", "careers", some "company"⟩,
    ⟨"jobs.*company", "jobs", some "company"⟩,
    ⟨"workday", "workday", none⟩,
    ⟨"greenhouse", "greenhouse", none⟩,
    ⟨"bamboohr", "bamboohr", none⟩,
    ⟨"lever", "lever", none⟩,
    ⟨"ashby", "ashby", none⟩,
    ⟨"ats.*apply", "ats", some "apply"⟩ ]

/-- `self.external_domains` (lines 82–86).  The script stores them in a
Python `set`, whose iteration order is unspecified; the list keeps the
source literal order (only the reason string for category (3), not the
boolean verdict, depends on the order). -/
def external_domains : List String :=
  [ "workday.com", "greenhouse.io", "bamboohr.com", "lever.co",
    "ashbyhq.com", "smartrecruiters.com", "jobvite.com",
    "icims.com", "taleo.net", "successfactors.com" ]

/-- `EnhancedNaukriJobApplier.is_external_application` (lines 423–452):
try each external pattern against the URL (IGNORECASE), then compare the
lowercased netloc of `urlparse` against the two naukri hosts, then look
for an ATS domain as a substring of the lowercased URL, then for a
`redirect` or `external` query parameter.  A raised exception (the
`ValueError` of `urlparse`) is caught and yields
`(False, "Error: " + str(e))`. -/
def is_external_application (job_url : String) : Bool × String :=
  let s := lowerChars job_url
  match external_patterns.find? (fun p => ExtPat.research p s) with
  | some p => (true, "URL pattern match: " ++ p.src)
  | none =>
    match pyUrlsplit job_url with
    | Except.error e => (false, "Error: " ++ e)
    | Except.ok parsed =>
      let domain := lowerStr parsed.netloc
      if domain != "naukri.com" && domain != "www.naukri.com" then
        (true, "External domain: " ++ domain)
      else
        match external_domains.find? (fun d => subOccurs d.data s) with
        | some d => (true, "External ATS domain: " ++ d)
        | none =>
          let keys := parse_qs_keys parsed.query.data
          if keys.contains "redirect" || keys.contains "external" then
            (true, "Redirect parameter detected")
          else (false, "")

/-- The fields of the `JobDetails` dataclass that the application flow
reads or writes (lines 38–54; the purely descriptive fields `location`,
`experience`, `salary`, `description`, `posted_date`, `application_date`
play no role in any branch). -/
structure EJob where
  title : String
  company : String
  url : String
  job_id : String
  is_external : Bool := false
  external_reason : String := ""
  applied : Bool := false
  application_status : String := "pending"
deriving DecidableEq, Repr

/-- The page observations `apply_to_job` makes after opening the job URL
in a new tab: the browser URL after loading, whether `find_apply_button`
returns a displayed and enabled control, and whether
`handle_application_form` reports success. -/
structure EPage where
  currentUrl : String
  applyButtonFound : Bool
  formHandled : Bool
deriving DecidableEq, Repr

/-- The mutable per-run collections of `EnhancedNaukriJobApplier`:
`self.shortlisted_jobs`, `self.failed_applications` and the
`self.applied_jobs` URL set (modelled as the list of URLs added, in
order). -/
structure EState where
  shortlisted_jobs : List EJob := []
  failed_applications : List EJob := []
  applied_jobs : List String := []
deriving DecidableEq, Repr

/-- The module imports of `enhanced_naukri_applier.py` (lines 7–25) are
`time`, `json`, `csv`, `logging`, `re`, `datetime`, `typing`,
`dataclasses`, `selenium` (six submodules), `urllib.parse`, `requests`
and `bs4`; `os` is never imported. -/
def moduleImportsOs : Bool := false

/-- `EnhancedNaukriJobApplier.save_applied_job` (lines 111–123): its
first statement is `os.makedirs('output', exist_ok=True)`.  Because the
module never imports `os`, the name lookup raises `NameError` before any
write happens. -/
def save_applied_job (_job : EJob) : Except PyExn Unit :=
  if moduleImportsOs then Except.ok () else Except.error PyExn.nameError

/-- `EnhancedNaukriJobApplier.apply_to_job` (lines 465–544): returns the
updated collections, the job record as last mutated, and the boolean
return value.  The branches, in source order: a job already flagged
external is shortlisted; otherwise `is_external_application` re-runs on
the loaded page's URL and shortlists on a match; a missing apply button
appends to `failed_applications`; a successful
`handle_application_form` sets the applied fields, adds the URL to
`applied_jobs` and calls `save_applied_job`, whose `NameError` is caught
by the method's `except` handler, which sets `application_status` to
`"error"` and appends to `failed_applications`; a failed form sets
`"failed"` and appends to `failed_applications`. -/
def apply_to_job (st : EState) (job : EJob) (page : EPage) : EState × EJob × Bool :=
  if job.is_external then
    ({ st with shortlisted_jobs := st.shortlisted_jobs ++ [job] }, job, false)
  else
    let ext := is_external_application page.currentUrl
    if ext.1 then
      let j := { job with is_external := true, external_reason := ext.2 }
      ({ st with shortlisted_jobs := st.shortlisted_jobs ++ [j] }, j, false)
    else if !page.applyButtonFound then
      ({ st with failed_applications := st.failed_applications ++ [job] }, job, false)
    else if page.formHandled then
      let j := { job with applied := true, application_status := "applied" }
      let st1 := { st with applied_jobs := st.applied_jobs ++ [job.url] }
      match save_applied_job j with
      | Except.ok _ => (st1, j, true)
      | Except.error _ =>
        let j2 := { j with application_status := "error" }
        ({ st1 with failed_applications := st1.failed_applications ++ [j2] }, j2, false)
    else
      let j := { job with application_status := "failed" }
      ({ st with failed_applications := st.failed_applications ++ [j] }, j, false)

end Enhanced

/-! ## `naukri_job_applier.py` -/

namespace NJA

/-- The external-application indicator phrases of
`NaukriJobApplier._is_external_application` (lines 291–298). -/
def external_indicators : List String :=
  [ "apply on company site", "apply on company website", "external site",
    "redirected to", "company career page", "external job board" ]

/-- The additional-details indicator phrases of
`NaukriJobApplier._requires_additional_details` (lines 323–331). -/
def additional_indicators : List String :=
  [ "answer the following", "additional questions", "questionnaire",
    "screening questions", "please provide", "tell us about",
    "why do you want" ]

/-- The observations the two page classifiers of the script read, each of
which is a Selenium query that may raise: the text of the `body` element,
the `onclick` attributes of the `//button[contains(text(), 'Apply')]`
elements (`get_attribute` returning `None` is already folded to `""` by
the script's `or ""`), and the number of elements matched by
`//input[@type='text'] | //textarea`. -/
structure NPage where
  bodyText : Except PyExn String
  applyOnclicks : Except PyExn (List String)
  textInputCount : Except PyExn Nat
deriving DecidableEq, Repr

/-- `NaukriJobApplier._is_external_application` (lines 287–317): one of
the six indicator phrases occurs in the lowercased body text, or
`"external"` or `"redirect"` occurs in the lowercased `onclick` of some
Apply button; a raised exception is caught and yields `False`. -/
def _is_external_application (p : NPage) : Bool :=
  match p.bodyText with
  | Except.error _ => false
  | Except.ok t =>
    let lt := lowerChars t
    if external_indicators.any (fun ind => subOccurs ind.data lt) then true
    else
      match p.applyOnclicks with
      | Except.error _ => false
      | Except.ok oncs =>
        oncs.any (fun oc =>
          subOccurs "external".data (lowerChars oc) ||
          subOccurs "redirect".data (lowerChars oc))

/-- `NaukriJobApplier._requires_additional_details` (lines 319–348): one
of the seven indicator phrases occurs in the lowercased body text, or the
page has more than 5 text-input/textarea elements; a raised exception is
caught and yields `False`. -/
def _requires_additional_details (p : NPage) : Bool :=
  match p.bodyText with
  | Except.error _ => false
  | Except.ok t =>
    let lt := lowerChars t
    if additional_indicators.any (fun ind => subOccurs ind.data lt) then true
    else
      match p.textInputCount with
      | Except.error _ => false
      | Except.ok n => decide (n > 5)

/-- The job dictionary built by `get_job_listings` (lines 179–187),
restricted to the fields the application flow reads.  The `timestamp`
value added to each result record is wall-clock I/O and is omitted. -/
structure NJob where
  title : String
  company : String
  job_id : String
  link : String
deriving DecidableEq, Repr

/-- The result collections of `NaukriJobApplier`: `self.applied_jobs`,
`self.shortlisted_jobs` and `self.failed_jobs`; shortlisted and failed
entries carry the `reason` string the script attaches. -/
structure NState where
  applied_jobs : List NJob := []
  shortlisted_jobs : List (NJob × String) := []
  failed_jobs : List (NJob × String) := []
deriving DecidableEq, Repr

/-- The further per-job inputs of `apply_to_job`: whether opening the job
tab raises (`execute_script` / `get`, before any classifier runs),
whether `_find_apply_button` returns a displayed and enabled button,
whether clicking it raises, and whether `_handle_application_popup`
returns `True`. -/
structure NAttempt where
  openRaises : Bool
  applyButton : Bool
  clickRaises : Bool
  popupOk : Bool
deriving DecidableEq, Repr

/-- The body of `NaukriJobApplier.apply_to_job` (lines 207–276), before
its `except` handler: an exception escaping any un-guarded step is
returned as `Except.error`. -/
def apply_to_job_body (st : NState) (job : NJob) (p : NPage) (a : NAttempt) :
    Except PyExn (NState × String) :=
  if a.openRaises then Except.error PyExn.generic
  else if _is_external_application p then
    Except.ok
      ({ st with shortlisted_jobs :=
          st.shortlisted_jobs ++ [(job, "External application required")] },
        "shortlisted")
  else if _requires_additional_details p then
    Except.ok
      ({ st with shortlisted_jobs :=
          st.shortlisted_jobs ++ [(job, "Additional details required")] },
        "shortlisted")
  else if a.applyButton then
    if a.clickRaises then Except.error PyExn.generic
    else if a.popupOk then
      Except.ok ({ st with applied_jobs := st.applied_jobs ++ [job] }, "applied")
    else
      Except.ok
        ({ st with failed_jobs :=
            st.failed_jobs ++ [(job, "Application popup handling failed")] },
          "failed")
  else
    Except.ok
      ({ st with failed_jobs :=
          st.failed_jobs ++ [(job, "Apply button not found")] },
        "failed")

/-- `NaukriJobApplier.apply_to_job` (lines 207–285): the body wrapped in
the method's `try`/`except`, which records the job in `failed_jobs` with
an `"Exception: ..."` reason and returns `'failed'`. -/
def apply_to_job (st : NState) (job : NJob) (p : NPage) (a : NAttempt) :
    NState × String :=
  match apply_to_job_body st job p a with
  | Except.ok r => r
  | Except.error _ =>
    ({ st with failed_jobs := st.failed_jobs ++ [(job, "Exception")] }, "failed")

end NJA

/-! ## Run-level events

For the temporal claim the main routines are modelled as emitting an
event for each login, job search, and application attempt, in execution
order. -/

/-- The externally visible phases of a run. -/
inductive Ev
  | login
  | search
  | apply
deriving DecidableEq, Repr

/-- Every decomposition of the trace around a `search` event has a
`login` event strictly before it. -/
def loginBeforeSearch (tr : List Ev) : Prop :=
  ∀ pre post, tr = pre ++ Ev.search :: post → Ev.login ∈ pre

/-- Every decomposition of the trace around an `apply` event has a
`search` event strictly before it. -/
def searchBeforeApply (tr : List Ev) : Prop :=
  ∀ pre post, tr = pre ++ Ev.apply :: post → Ev.search ∈ pre

namespace NJA

/-- Result of processing one page of listings in `run`:
the collections, the updated `applications_count`, and the apply events
emitted. -/
structure PageRes where
  state : NState
  count : Nat
  events : List Ev
deriving Repr

/-- The `for job in jobs` loop of `NaukriJobApplier.run`
(lines 487–501): stop on `applications_count >= max_applications`, skip
jobs whose `job_id` is already in `applied_jobs`, otherwise attempt the
application and count `'applied'` results. -/
def page_loop (st : NState) (jobs : List (NJob × NPage × NAttempt))
    (cnt maxApps : Nat) : PageRes :=
  match jobs with
  | [] => ⟨st, cnt, []⟩
  | (job, p, a) :: rest =>
    if cnt ≥ maxApps then ⟨st, cnt, []⟩
    else if st.applied_jobs.any (fun j => j.job_id == job.job_id) then
      page_loop st rest cnt maxApps
    else
      let r := apply_to_job st job p a
      let cnt2 := if r.2 == "applied" then cnt + 1 else cnt
      let res := page_loop r.1 rest cnt2 maxApps
      ⟨res.state, res.count, Ev.apply :: res.events⟩

/-- Result of `run`: collections, final `applications_count`, number of
pages processed, and the emitted events. -/
structure RunRes where
  state : NState
  count : Nat
  pagesDone : Nat
  events : List Ev
deriving Repr

/-- The `while applications_count < max_applications and page_count <
max_pages` loop of `run` (lines 482–507); the input list of pages ends
where `navigate_to_next_page` returns `False`. -/
def run_loop (st : NState) (pages : List (List (NJob × NPage × NAttempt)))
    (cnt pc maxApps maxPages : Nat) : RunRes :=
  match pages with
  | [] => ⟨st, cnt, pc, []⟩
  | pg :: rest =>
    if cnt < maxApps ∧ pc < maxPages then
      let r := page_loop st pg cnt maxApps
      let res := run_loop r.state rest r.count (pc + 1) maxApps maxPages
      ⟨res.state, res.count, res.pagesDone, r.events ++ res.events⟩
    else ⟨st, cnt, pc, []⟩

/-- `NaukriJobApplier.run` (lines 468–519): `setup_driver`, then `login`
— a `False` result ends the run before any search — then `search_jobs`
and the page loop. -/
def run (loginOk : Bool) (pages : List (List (NJob × NPage × NAttempt)))
    (maxApps maxPages : Nat) : RunRes :=
  if !loginOk then ⟨{}, 0, 0, [Ev.login]⟩
  else
    let r := run_loop {} pages 0 0 maxApps maxPages
    ⟨r.state, r.count, r.pagesDone, Ev.login :: Ev.search :: r.events⟩

end NJA

namespace Enhanced

/-- The `for i, job in enumerate(jobs, 1)` loop of
`EnhancedNaukriJobApplier.run` (lines 856–865), counting the successful
applications and emitting one apply event per job processed. -/
def run_jobs (st : EState) (jobs : List (EJob × EPage)) : EState × Nat × List Ev :=
  match jobs with
  | [] => (st, 0, [])
  | (j, p) :: rest =>
    let r := apply_to_job st j p
    let res := run_jobs r.1 rest
    (res.1, (if r.2.2 then 1 else 0) + res.2.1, Ev.apply :: res.2.2)

/-- `EnhancedNaukriJobApplier.run` (lines 839–880): `login` raises on
failure (its `except` re-raises), and the raise is caught by `run`'s own
handler — so a failed login produces no search; otherwise `search_jobs`
runs once and the job loop follows. -/
def run (loginOk : Bool) (jobs : List (EJob × EPage)) : EState × Nat × List Ev :=
  if !loginOk then ({}, 0, [Ev.login])
  else
    let r := run_jobs {} jobs
    (r.1, r.2.1, Ev.login :: Ev.search :: r.2.2)

end Enhanced

/-! ## `apply_naukri_jobs.py` -/

namespace ANJ

/-- One job card of `search_and_apply` (lines 73–98): whether
`job.find_element(By.CSS_SELECTOR, "a.title")` succeeds — this lookup is
*outside* the per-job `try` — the job URL, whether the Apply button is
found and clicked without raising, and whether the Submit button of the
quick-apply modal is found and clicked without raising. -/
structure ACard where
  linkElOk : Bool
  link : String
  applyBtnFound : Bool
  submitOk : Bool
deriving DecidableEq, Repr

/-- The `for job in jobs` loop of `search_and_apply` (lines 73–98) for
one keyword: link extraction and tab management run unguarded, so their
exceptions propagate out of the loop; inside the `try`, a missing Apply
button or a missing Submit button shortlists the URL.  Returns the
emitted apply events together with either the final
`(applied_count, shortlisted)` or the escaped exception. -/
def cards_loop (cards : List ACard) (applied : Nat) (short : List String) :
    List Ev × Except PyExn (Nat × List String) :=
  match cards with
  | [] => ([], Except.ok (applied, short))
  | c :: rest =>
    if !c.linkElOk then ([], Except.error PyExn.noSuchElement)
    else
      let nxt :=
        if c.applyBtnFound then
          if c.submitOk then (applied + 1, short)
          else (applied, short ++ [c.link])
        else (applied, short ++ [c.link])
      let r := cards_loop rest nxt.1 nxt.2
      (Ev.apply :: r.1, r.2)

/-- `search_and_apply` (lines 64–99): one search per keyword of
`KEYWORDS`, each followed by its card loop; an exception escaping a card
loop escapes `search_and_apply` itself. -/
def search_and_apply (kws : List (List ACard)) (applied : Nat)
    (short : List String) : List Ev × Except PyExn (Nat × List String) :=
  match kws with
  | [] => ([], Except.ok (applied, short))
  | kw :: rest =>
    let r := cards_loop kw applied short
    match r.2 with
    | Except.error e => (Ev.search :: r.1, Except.error e)
    | Except.ok (a, s) =>
      let r2 := search_and_apply rest a s
      (Ev.search :: (r.1 ++ r2.1), r2.2)

/-- `main` (lines 115–130): `login` raises on failure (the
`WebDriverWait` times out) and nothing catches it — the `finally` only
quits the driver — so a failed login produces no search and the program
aborts; otherwise `search_and_apply` runs. -/
def main (loginOk : Bool) (kws : List (List ACard)) :
    List Ev × Except PyExn (Nat × List String) :=
  if !loginOk then ([Ev.login], Except.error PyExn.timeout)
  else
    let r := search_and_apply kws 0 []
    (Ev.login :: r.1, r.2)

/-- A CSV file on disk: `none` when the file does not exist, otherwise
the list of its rows. -/
abbrev FileSt := Option (List (List String))

/-- `save_shortlist` (lines 102–112): an empty list returns at once;
otherwise the header row `["Job URL"]` is written exactly when the file
did not exist (`write_header = not SHORTLIST_FILE.exists()`), the file is
opened in append mode, and each URL is written as a one-column row. -/
def save_shortlist (urls : List String) (f : FileSt) : FileSt :=
  if urls.isEmpty then f
  else
    let rows := match f with
      | none => [["Job URL"]]
      | some rs => rs
    some (rows ++ urls.map (fun u => [u]))

end ANJ

/-! ## `scripts/naukri_auto_apply.py` -/

namespace SNAA

/-- The observations `_detect_external_or_detailed_apply` reads: the URLs
of `self.context.pages` after the click, the `before_urls` snapshot taken
just before the click, and the number of `form input, form select, form
textarea` elements of the last page (a query that may raise — and raises
`IndexError` when `context.pages` is empty). -/
structure SCtx where
  pageUrls : List String
  beforeUrls : List String
  activeFormInputs : Except PyExn Nat
deriving DecidableEq, Repr

/-- `NaukriAutoApply._detect_external_or_detailed_apply` (lines 316–333):
a non-`about:blank` page that is not in `before_urls` and whose URL does
not contain `naukri.com` means an external apply; otherwise at least 3
form inputs on the active page mean a detailed form; an exception in the
form count is swallowed (`except: pass`) and the empty reason is
returned. -/
def _detect_external_or_detailed_apply (ctx : SCtx) : String :=
  if ctx.pageUrls.any (fun url =>
      !prefAt "about:blank".data url.data &&
      !ctx.beforeUrls.contains url &&
      !subOccurs "naukri.com".data url.data) then
    "External apply (company site)"
  else
    match ctx.activeFormInputs with
    | Except.error _ => ""
    | Except.ok n => if n ≥ 3 then "Detailed form requires manual entry" else ""

/-- One candidate Apply button of `_attempt_apply_on_detail`: its text
(`inner_text().strip()`; a raise is folded to `""` by the script), whether
the click succeeds, and the page/context observations made after the
click. -/
structure SBtn where
  txt : String
  clickOk : Bool
  ctxAfter : SCtx
deriving DecidableEq, Repr

/-- The collections of `NaukriAutoApply`: `applied_rows` as
`(title, company, link)` and `shortlisted_rows` as
`(title, company, link, reason)`. -/
structure SState where
  applied_rows : List (String × String × String) := []
  shortlisted_rows : List (String × String × String × String) := []
deriving DecidableEq, Repr

/-- `NaukriAutoApply._attempt_apply_on_detail` (lines 335–396): skip
candidates whose text mentions `company`, `site` or `external`, skip
candidates whose click raises; after the first successful click, a
non-empty reason from `_detect_external_or_detailed_apply` shortlists,
otherwise the job is recorded as applied — the success-text wait only
selects between two branches that append the same applied row.  When no
candidate is clicked, the job is shortlisted with
`"No direct Apply button found"`. -/
def attempt_apply_on_detail (st : SState) (title company link : String) :
    List SBtn → SState × Bool
  | [] =>
    ({ st with shortlisted_rows :=
        st.shortlisted_rows ++ [(title, company, link, "No direct Apply button found")] },
      false)
  | b :: rest =>
    let lt := lowerChars b.txt
    if subOccurs "company".data lt || subOccurs "site".data lt ||
        subOccurs "external".data lt then
      attempt_apply_on_detail st title company link rest
    else if !b.clickOk then
      attempt_apply_on_detail st title company link rest
    else
      let reason := _detect_external_or_detailed_apply b.ctxAfter
      if reason != "" then
        ({ st with shortlisted_rows :=
            st.shortlisted_rows ++ [(title, company, link, reason)] },
          false)
      else
        ({ st with applied_rows := st.applied_rows ++ [(title, company, link)] },
          true)

/-- One job card of `search_and_apply`: title, company, link, whether
`detail.goto` succeeds (after its one retry), whether
`_attempt_apply_on_detail` raises out of its `try`, and the candidate
buttons it sees when it runs. -/
structure SCard where
  title : String
  company : String
  link : String
  openOk : Bool
  attemptRaises : Bool
  buttons : List SBtn
deriving DecidableEq, Repr

/-- Result of the card loop: the collections, the visited set, and
whether the `return` for `max_jobs` fired. -/
structure SLoopRes where
  state : SState
  visited : List String
  returned : Bool
deriving DecidableEq, Repr

/-- The `for title, company, link in cards` loop of
`NaukriAutoApply.search_and_apply` (lines 420–466): skip visited links; a
card whose detail page fails to open is shortlisted with `"Failed to open
job detail"` and the loop `continue`s — bypassing the `max_jobs` check;
otherwise the apply attempt runs (its escaped exceptions shortlist with
`"Error during apply"`), after which the loop returns as soon as
`0 < max_jobs <= len(applied_rows) + len(shortlisted_rows)`. -/
def cards_loop (st : SState) (visited : List String) (cards : List SCard)
    (maxJobs : Int) : SLoopRes :=
  match cards with
  | [] => ⟨st, visited, false⟩
  | card :: rest =>
    if visited.contains card.link then cards_loop st visited rest maxJobs
    else
      let visited2 := visited ++ [card.link]
      if !card.openOk then
        let st2 := { st with shortlisted_rows :=
          st.shortlisted_rows ++ [(card.title, card.company, card.link, "Failed to open job detail")] }
        cards_loop st2 visited2 rest maxJobs
      else
        let st2 :=
          if card.attemptRaises then
            { st with shortlisted_rows :=
                st.shortlisted_rows ++ [(card.title, card.company, card.link, "Error during apply")] }
          else
            (attempt_apply_on_detail st card.title card.company card.link card.buttons).1
        if 0 < maxJobs ∧ maxJobs ≤ (st2.applied_rows.length + st2.shortlisted_rows.length : Int) then
          ⟨st2, visited2, true⟩
        else cards_loop st2 visited2 rest maxJobs

/-- `NaukriAutoApply.search_and_apply` (lines 398–468): one card loop per
query; a fired `max_jobs` return ends the whole function. -/
def search_and_apply (st : SState) (visited : List String)
    (queries : List (List SCard)) (maxJobs : Int) : SState :=
  match queries with
  | [] => st
  | q :: rest =>
    let r := cards_loop st visited q maxJobs
    if r.returned then r.state
    else search_and_apply r.state r.visited rest maxJobs

/-- `write_csv` (lines 35–42): `is_new = not os.path.exists(path)`, open
in append mode, write the header exactly when the file was new, then
every row (rows are modelled as their values in header order). -/
def write_csv (headers : List String) (rows : List (List String))
    (f : ANJ.FileSt) : ANJ.FileSt :=
  let cur := match f with
    | none => [headers]
    | some rs => rs
  some (cur ++ rows)

end SNAA

/-! ## `naukri_auto_apply.py` (repository root) -/

namespace RNAA

/-- The external-application indicator phrases of
`NaukriJobApplier.check_if_external_application` (lines 248–254). -/
def external_indicators : List String :=
  [ "Apply on company website", "Visit company website",
    "External application", "Apply directly", "Redirect to" ]

/-- The question indicator phrases of
`NaukriJobApplier.has_application_questions` (lines 281–287). -/
def question_indicators : List String :=
  [ "questionnaire", "additional information", "cover letter",
    "why should we hire you", "tell us about yourself" ]

/-- The success phrases of `apply_to_job` (line 365). -/
def success_indicators : List String :=
  [ "applied successfully", "application submitted", "applied" ]

/-- `NaukriJobApplier.check_if_external_application` (lines 244–275): one
of the five indicators (lowercased) occurs in the lowercased page source,
or some Apply-button link has an `href` that does not contain
`naukri.com`; an exception in the href scan is swallowed by the inner
`except: pass` and an exception reading the page source is caught by the
outer handler — both paths return `False`. -/
def check_if_external_application (pageSource : Except PyExn String)
    (applyHrefs : Except PyExn (List (Option String))) : Bool :=
  match pageSource with
  | Except.error _ => false
  | Except.ok src =>
    let t := lowerChars src
    if external_indicators.any (fun i => subOccurs (lowerChars i) t) then true
    else
      match applyHrefs with
      | Except.error _ => false
      | Except.ok hrefs =>
        hrefs.any (fun h =>
          match h with
          | none => false
          | some s => !subOccurs "naukri.com".data s.data)

/-- `NaukriJobApplier.has_application_questions` (lines 277–300): one of
the five indicators occurs in the lowercased page source, or the page has
at least one textarea / non-email non-phone text input; an exception is
caught and yields `False`. -/
def has_application_questions (pageSource : Except PyExn String)
    (formCount : Except PyExn Nat) : Bool :=
  match pageSource with
  | Except.error _ => false
  | Except.ok src =>
    let t := lowerChars src
    if question_indicators.any (fun i => subOccurs i.data t) then true
    else
      match formCount with
      | Except.error _ => false
      | Except.ok n => decide (n > 0)

/-- The job dictionary built by `extract_job_info` (lines 198–242),
restricted to the fields the flow reads. -/
structure RJob where
  job_id : String
  title : String
  company : String
  url : String
deriving DecidableEq, Repr

/-- The page observations of `apply_to_job`: page source and Apply-button
hrefs for the external check, the form-element count for the question
check, whether an apply button is found displayed and enabled, and the
page source after the click (scanned for the success phrases). -/
structure RPage where
  pageSource : Except PyExn String
  applyHrefs : Except PyExn (List (Option String))
  formCount : Except PyExn Nat
  applyButtonFound : Bool
  afterClickSource : String
deriving DecidableEq, Repr

/-- The collections of `NaukriJobApplier`: the `applied_jobs` id set
(modelled as the list of ids added) and `shortlisted_jobs` with the
`reason` each entry gets; the CSV mirror files
(`save_applied_job` / `save_shortlisted_job`) hold the same records. -/
structure RState where
  applied_jobs : List String := []
  shortlisted_jobs : List (RJob × String) := []
deriving DecidableEq, Repr

/-- `NaukriJobApplier.apply_to_job` (lines 302–391): skip already-applied
ids; an external application or application questions shortlist the job;
a missing apply button raises `NoSuchElementException`, caught by the
inner handler which shortlists with an `"Application failed: ..."`
reason; after a click, a success phrase in the page source records the
job as applied, anything else shortlists with `"Application process
unclear"`. -/
def apply_to_job (st : RState) (job : RJob) (p : RPage) : RState × Bool :=
  if st.applied_jobs.contains job.job_id then (st, false)
  else if check_if_external_application p.pageSource p.applyHrefs then
    ({ st with shortlisted_jobs :=
        st.shortlisted_jobs ++ [(job, "External application required")] }, false)
  else if has_application_questions p.pageSource p.formCount then
    ({ st with shortlisted_jobs :=
        st.shortlisted_jobs ++ [(job, "Additional questions/details required")] }, false)
  else if !p.applyButtonFound then
    ({ st with shortlisted_jobs :=
        st.shortlisted_jobs ++ [(job, "Application failed: No apply button found")] }, false)
  else
    let src := lowerChars p.afterClickSource
    if success_indicators.any (fun i => subOccurs i.data src) then
      ({ st with applied_jobs := st.applied_jobs ++ [job.job_id] }, true)
    else
      ({ st with shortlisted_jobs :=
          st.shortlisted_jobs ++ [(job, "Application process unclear")] }, false)

/-- The `for job_url in job_urls` loop of `run` (lines 417–429): break
when `applications_made >= max_applications_per_run`, otherwise apply and
count successes. -/
def run_jobs (st : RState) (jobs : List (RJob × RPage)) (made maxApps : Nat) :
    RState × Nat :=
  match jobs with
  | [] => (st, made)
  | (j, p) :: rest =>
    if made ≥ maxApps then (st, made)
    else
      let r := apply_to_job st j p
      run_jobs r.1 rest (if r.2 then made + 1 else made) maxApps

/-- The `for location in ...` loop of `run` (lines 411–429), with its own
break on the limit. -/
def run_locs (st : RState) (locs : List (List (RJob × RPage)))
    (made maxApps : Nat) : RState × Nat :=
  match locs with
  | [] => (st, made)
  | l :: rest =>
    if made ≥ maxApps then (st, made)
    else
      let r := run_jobs st l made maxApps
      run_locs r.1 rest r.2 maxApps

/-- The `for keyword in ...` loop of `run` (lines 404–429), with its own
break on the limit. -/
def run_kws (st : RState) (kws : List (List (List (RJob × RPage))))
    (made maxApps : Nat) : RState × Nat :=
  match kws with
  | [] => (st, made)
  | k :: rest =>
    if made ≥ maxApps then (st, made)
    else
      let r := run_locs st k made maxApps
      run_kws r.1 rest r.2 maxApps

end RNAA

/-! ## Claim theorems -/

/-- C2: for every URL string `u` on which `urlparse` succeeds,
`EnhancedNaukriJobApplier.is_external_application(u)` returns
`(True, reason)` if and only if (1) one of the ten external regex
patterns matches `u` case-insensitively, or (2) the lowercased netloc of
`urlparse(u)` is neither `naukri.com` nor `www.naukri.com`, or (3) one of
the ten ATS domains occurs as a substring of `u` lowercased, or (4) the
query string contains a `redirect` or `external` parameter — the checks
run in this order and the first match determines the reason string — and
otherwise it returns `(False, "")`. -/
theorem c2_is_external_application_characterization (u : String) (pr : SplitResult) (h : pyUrlsplit u = Except.ok pr) :
    ((Enhanced.is_external_application u).1 = true ↔
      ((∃ p ∈ Enhanced.external_patterns,
          Enhanced.ExtPat.research p (lowerChars u) = true) ∨
       (lowerStr pr.netloc ≠ "naukri.com" ∧ lowerStr pr.netloc ≠ "www.naukri.com") ∨
       (∃ d ∈ Enhanced.external_domains, subOccurs d.data (lowerChars u) = true) ∨
       ("redirect" ∈ parse_qs_keys pr.query.data ∨
        "external" ∈ parse_qs_keys pr.query.data))) ∧
    (∀ p, Enhanced.external_patterns.find?
        (fun q => Enhanced.ExtPat.research q (lowerChars u)) = some p →
      (Enhanced.is_external_application u).2 = "URL pattern match: " ++ p.src) ∧
    ((¬ ∃ p ∈ Enhanced.external_patterns,
        Enhanced.ExtPat.research p (lowerChars u) = true) →
      (lowerStr pr.netloc ≠ "naukri.com" ∧ lowerStr pr.netloc ≠ "www.naukri.com") →
      (Enhanced.is_external_application u).2 = "External domain: " ++ lowerStr pr.netloc) ∧
    ((¬ ∃ p ∈ Enhanced.external_patterns,
        Enhanced.ExtPat.research p (lowerChars u) = true) →
      ¬ (lowerStr pr.netloc ≠ "naukri.com" ∧ lowerStr pr.netloc ≠ "www.naukri.com") →
      ∀ d, Enhanced.external_domains.find?
          (fun e => subOccurs e.data (lowerChars u)) = some d →
        (Enhanced.is_external_application u).2 = "External ATS domain: " ++ d) ∧
    ((¬ ∃ p ∈ Enhanced.external_patterns,
        Enhanced.ExtPat.research p (lowerChars u) = true) →
      ¬ (lowerStr pr.netloc ≠ "naukri.com" ∧ lowerStr pr.netloc ≠ "www.naukri.com") →
      (¬ ∃ d ∈ Enhanced.external_domains, subOccurs d.data (lowerChars u) = true) →
      ("redirect" ∈ parse_qs_keys pr.query.data ∨
       "external" ∈ parse_qs_keys pr.query.data) →
      (Enhanced.is_external_application u).2 = "Redirect parameter detected") ∧
    ((Enhanced.is_external_application u).1 = false →
      (Enhanced.is_external_application u).2 = "") := by
  simp only [Enhanced.is_external_application, h]
  cases hF1 : Enhanced.external_patterns.find?
      (fun q => Enhanced.ExtPat.research q (lowerChars u)) with
  | some p =>
    have hres : Enhanced.ExtPat.research p (lowerChars u) = true := by
      have hx := List.find?_some hF1
      simpa using hx
    have hc1 : ∃ q ∈ Enhanced.external_patterns,
        Enhanced.ExtPat.research q (lowerChars u) = true :=
      ⟨p, List.mem_of_find?_eq_some hF1, hres⟩
    refine ⟨by simp [hc1], ?_, ?_, ?_, ?_, by simp⟩
    · intro q hq
      injection hq with h2
      subst h2
      rfl
    · intro hn
      exact absurd hc1 hn
    · intro hn
      exact absurd hc1 hn
    · intro hn
      exact absurd hc1 hn
  | none =>
    have hnc1 : ¬ ∃ q ∈ Enhanced.external_patterns,
        Enhanced.ExtPat.research q (lowerChars u) = true := by
      rintro ⟨q, hq, hres⟩
      exact absurd hres (by simpa using List.find?_eq_none.mp hF1 q hq)
    by_cases hdom : lowerStr pr.netloc ≠ "naukri.com" ∧ lowerStr pr.netloc ≠ "www.naukri.com"
    · have hb : (lowerStr pr.netloc != "naukri.com" && lowerStr pr.netloc != "www.naukri.com") = true := by
        simp [bne_iff_ne, hdom.1, hdom.2]
      refine ⟨by simp [hb, hdom], ?_, ?_, ?_, ?_, by simp [hb]⟩
      · intro q hq
        exact Option.noConfusion hq
      · intro _ _
        simp [hb]
      · intro _ hnd
        exact absurd hdom hnd
      · intro _ hnd
        exact absurd hdom hnd
    · have hb : (lowerStr pr.netloc != "naukri.com" && lowerStr pr.netloc != "www.naukri.com") = false := by
        rcases not_and_or.mp hdom with hx | hx
        · simp [bne_iff_ne, not_not.mp hx]
        · simp [bne_iff_ne, not_not.mp hx]
      simp only [hb, Bool.false_eq_true, if_false]
      cases hF3 : Enhanced.external_domains.find?
          (fun e => subOccurs e.data (lowerChars u)) with
      | some d =>
        have hres3 : subOccurs d.data (lowerChars u) = true := by
          have hx := List.find?_some hF3
          simpa using hx
        have hc3 : ∃ e ∈ Enhanced.external_domains,
            subOccurs e.data (lowerChars u) = true :=
          ⟨d, List.mem_of_find?_eq_some hF3, hres3⟩
        refine ⟨by simp [hc3], ?_, ?_, ?_, ?_, by simp⟩
        · intro q hq
          exact Option.noConfusion hq
        · intro _ hd
          exact absurd hd hdom
        · intro _ _ e he
          injection he with h2
          subst h2
          rfl
        · intro _ _ hn
          exact absurd hc3 hn
      | none =>
        have hnc3 : ¬ ∃ e ∈ Enhanced.external_domains,
            subOccurs e.data (lowerChars u) = true := by
          rintro ⟨e, he, hres⟩
          exact absurd hres (by simpa using List.find?_eq_none.mp hF3 e he)
        by_cases hred : "redirect" ∈ parse_qs_keys pr.query.data ∨
            "external" ∈ parse_qs_keys pr.query.data
        · refine ⟨?_, ?_, ?_, ?_, ?_, ?_⟩
          · constructor
            · intro _
              exact Or.inr (Or.inr (Or.inr hred))
            · intro _
              rcases hred with hx | hx <;> simp [hx]
          · intro q hq
            exact Option.noConfusion hq
          · intro _ hd
            exact absurd hd hdom
          · intro _ _ e he
            exact Option.noConfusion he
          · intro _ _ _ _
            rcases hred with hx | hx <;> simp [hx]
          · intro hfalse
            rcases hred with hx | hx <;> simp [hx] at hfalse
        · push_neg at hred
          obtain ⟨hr1, hr2⟩ := hred
          refine ⟨?_, ?_, ?_, ?_, ?_, ?_⟩
          · constructor
            · intro hcontra
              simp [hr1, hr2] at hcontra
            · rintro (hx | hx | hx | hx)
              · exact absurd hx hnc1
              · exact absurd hx hdom
              · exact absurd hx hnc3
              · rcases hx with hx | hx
                · exact absurd hx hr1
                · exact absurd hx hr2
          · intro q hq
            exact Option.noConfusion hq
          · intro _ hd
            exact absurd hd hdom
          · intro _ _ e he
            exact Option.noConfusion he
          · intro _ _ _ hc4
            rcases hc4 with hx | hx
            · exact absurd hx hr1
            · exact absurd hx hr2
          · intro _
            simp [hr1, hr2]

/-- Witness for C2 at two concrete URLs: a plain naukri posting URL is
classified internal, and a URL on `careers.example.com` is classified
external with the netloc reason. -/
theorem c2_is_external_application_characterization_witness :
    (Enhanced.is_external_application
        "https://www.naukri.com/java-backend-developer-abc123?src=cluster").1 = false ∧
    (Enhanced.is_external_application "https://careers.example.com/role7").1 = true ∧
    (Enhanced.is_external_application "https://careers.example.com/role7").2 =
      "External domain: careers.example.com" := by
  have h1 := c2_is_external_application_characterization
    "https://www.naukri.com/java-backend-developer-abc123?src=cluster"
    ⟨"https", "www.naukri.com", "/java-backend-developer-abc123", "src=cluster", ""⟩
    (by decide)
  have h2 := c2_is_external_application_characterization
    "https://careers.example.com/role7"
    ⟨"https", "careers.example.com", "/role7", "", ""⟩
    (by decide)
  refine ⟨?_, h2.1.mpr (Or.inr (Or.inl (by decide))), ?_⟩
  · cases hv : (Enhanced.is_external_application
        "https://www.naukri.com/java-backend-developer-abc123?src=cluster").1 with
    | false => rfl
    | true => exact absurd (h1.1.mp hv) (by decide)
  · exact (h2.2.2.1 (by decide) (by decide)).trans (by decide)

/-- C4: `enhanced_naukri_applier.py` never imports `os`, yet
`save_applied_job` calls `os.makedirs`, so every call to
`save_applied_job` raises `NameError`; consequently `apply_to_job`
returns `False` on every input, a quick apply that reaches the success
branch ends in the exception handler with `application_status = "error"`
and the job appended to `failed_applications`, and no run of the script
records a positive applied count. -/
theorem c4_missing_os_import_blocks_applied_recording :
    Enhanced.moduleImportsOs = false ∧
    (∀ j, Enhanced.save_applied_job j = Except.error PyExn.nameError) ∧
    (∀ st job page, (Enhanced.apply_to_job st job page).2.2 = false) ∧
    (∀ st job page, job.is_external = false →
      (Enhanced.is_external_application page.currentUrl).1 = false →
      page.applyButtonFound = true → page.formHandled = true →
      (Enhanced.apply_to_job st job page).2.1.application_status = "error" ∧
      (Enhanced.apply_to_job st job page).2.1 ∈
        (Enhanced.apply_to_job st job page).1.failed_applications) ∧
    (∀ loginOk jobs, (Enhanced.run loginOk jobs).2.1 = 0) := by
  have hsave : ∀ j, Enhanced.save_applied_job j = Except.error PyExn.nameError := by
    intro j
    rfl
  have hret : ∀ st job page, (Enhanced.apply_to_job st job page).2.2 = false := by
    intro st job page
    simp only [Enhanced.apply_to_job, hsave]
    split
    · rfl
    · split
      · rfl
      · split
        · rfl
        · split
          · rfl
          · rfl
  refine ⟨rfl, hsave, hret, ?_, ?_⟩
  · intro st job page hext hurl hbtn hform
    simp [Enhanced.apply_to_job, hsave, hext, hurl, hbtn, hform]
  · intro loginOk jobs
    unfold Enhanced.run
    split
    · rfl
    · have : ∀ st js, (Enhanced.run_jobs st js).2.1 = 0 := by
        intro st js
        induction js generalizing st with
        | nil => rfl
        | cons hd tl ih =>
          obtain ⟨j, p⟩ := hd
          simp only [Enhanced.run_jobs]
          simp [hret, ih]
      simp [this]

/-- Witness for C4: a concrete non-external job with an apply button and
a successfully handled form still ends with status `"error"` in
`failed_applications`. -/
theorem c4_missing_os_import_blocks_applied_recording_witness :
    (Enhanced.apply_to_job {}
        { title := "Backend Dev", company := "Acme",
          url := "https://www.naukri.com/job-listings-dev-1", job_id := "1" }
        { currentUrl := "https://www.naukri.com/job-listings-dev-1",
          applyButtonFound := true, formHandled := true }).2.1.application_status
      = "error" ∧
    (Enhanced.apply_to_job {}
        { title := "Backend Dev", company := "Acme",
          url := "https://www.naukri.com/job-listings-dev-1", job_id := "1" }
        { currentUrl := "https://www.naukri.com/job-listings-dev-1",
          applyButtonFound := true, formHandled := true }).2.1 ∈
      (Enhanced.apply_to_job {}
        { title := "Backend Dev", company := "Acme",
          url := "https://www.naukri.com/job-listings-dev-1", job_id := "1" }
        { currentUrl := "https://www.naukri.com/job-listings-dev-1",
          applyButtonFound := true, formHandled := true }).1.failed_applications :=
  c4_missing_os_import_blocks_applied_recording.2.2.2.1 {}
    { title := "Backend Dev", company := "Acme",
      url := "https://www.naukri.com/job-listings-dev-1", job_id := "1" }
    { currentUrl := "https://www.naukri.com/job-listings-dev-1",
      applyButtonFound := true, formHandled := true }
    rfl (by decide) rfl rfl

/-- C5: `NaukriJobApplier._requires_additional_details` returns `True`
iff the lowercased body text contains one of the seven indicator phrases
or the number of text-input and textarea elements exceeds 5; an exception
raised while reading the body text, or while counting the form fields
after no indicator matched, yields `False`. -/
theorem c5_requires_additional_details_characterization (p : NJA.NPage) :
    (∀ t n, p.bodyText = Except.ok t → p.textInputCount = Except.ok n →
      (NJA._requires_additional_details p = true ↔
        (∃ ind ∈ NJA.additional_indicators,
          subOccurs ind.data (lowerChars t) = true) ∨ n > 5)) ∧
    (∀ e, p.bodyText = Except.error e →
      NJA._requires_additional_details p = false) ∧
    (∀ t e, p.bodyText = Except.ok t →
      NJA.additional_indicators.all
        (fun ind => !subOccurs ind.data (lowerChars t)) = true →
      p.textInputCount = Except.error e →
      NJA._requires_additional_details p = false) := by
  obtain ⟨bt, oc, tc⟩ := p
  refine ⟨?_, ?_, ?_⟩
  · intro t n ht hn
    simp only at ht hn
    subst ht
    subst hn
    cases hb : NJA.additional_indicators.any
        (fun ind => subOccurs ind.data (lowerChars t)) with
    | true =>
      have hind := List.any_eq_true.mp hb
      simp [NJA._requires_additional_details, hb]
      exact Or.inl hind
    | false =>
      have hnind : ¬ ∃ ind ∈ NJA.additional_indicators,
          subOccurs ind.data (lowerChars t) = true := by
        rintro ⟨x, hx, hpx⟩
        exact absurd hpx (by simpa using List.any_eq_false.mp hb x hx)
      simp [NJA._requires_additional_details, hb, hnind]
  · intro e ht
    simp only at ht
    subst ht
    rfl
  · intro t e ht hall hn
    simp only at ht hn
    subst ht
    subst hn
    have hb : NJA.additional_indicators.any
        (fun ind => subOccurs ind.data (lowerChars t)) = false := by
      rw [List.any_eq_false]
      intro x hx
      simpa using List.all_eq_true.mp hall x hx
    simp [NJA._requires_additional_details, hb]

/-- Witness for C5: a page whose body mentions a screening phrase is
flagged, and a page whose body read raises is not. -/
theorem c5_requires_additional_details_characterization_witness :
    NJA._requires_additional_details
      ⟨Except.ok "Please provide your details", Except.ok [], Except.ok 2⟩ = true ∧
    NJA._requires_additional_details
      ⟨Except.error PyExn.timeout, Except.ok [], Except.ok 100⟩ = false := by
  have h1 := (c5_requires_additional_details_characterization
      ⟨Except.ok "Please provide your details", Except.ok [], Except.ok 2⟩).1
    "Please provide your details" 2 rfl rfl
  have h2 := (c5_requires_additional_details_characterization
      ⟨Except.error PyExn.timeout, Except.ok [], Except.ok 100⟩).2.1
    PyExn.timeout rfl
  exact ⟨h1.mpr (Or.inl (by decide)), h2⟩

/-- C6: in each of the three external-application classifiers a raised
exception is caught and the classifier returns `False` (for the enhanced
one, `(False, "Error: ...")`), so on internal error the posting stays
eligible for auto-apply: the `urlparse` `ValueError` path of
`is_external_application`, the body-text and button-scan raise paths of
`_is_external_application`, and the page-source and href-scan raise paths
of `check_if_external_application`. -/
theorem c6_classifier_exception_returns_false :
    (∀ (u : String) (e : String),
      Enhanced.external_patterns.find?
        (fun q => Enhanced.ExtPat.research q (lowerChars u)) = none →
      pyUrlsplit u = Except.error e →
      Enhanced.is_external_application u = (false, "Error: " ++ e)) ∧
    (∀ (p : NJA.NPage) (e : PyExn), p.bodyText = Except.error e →
      NJA._is_external_application p = false) ∧
    (∀ (p : NJA.NPage) (t : String) (e : PyExn), p.bodyText = Except.ok t →
      NJA.external_indicators.all
        (fun i => !subOccurs i.data (lowerChars t)) = true →
      p.applyOnclicks = Except.error e →
      NJA._is_external_application p = false) ∧
    (∀ (hrefs : Except PyExn (List (Option String))) (e : PyExn),
      RNAA.check_if_external_application (Except.error e) hrefs = false) ∧
    (∀ (src : String) (e : PyExn),
      RNAA.external_indicators.all
        (fun i => !subOccurs (lowerChars i) (lowerChars src)) = true →
      RNAA.check_if_external_application (Except.ok src) (Except.error e) = false) := by
  refine ⟨?_, ?_, ?_, ?_, ?_⟩
  · intro u e hfind hurl
    simp [Enhanced.is_external_application, hfind, hurl]
  · intro p e ht
    obtain ⟨bt, oc, tc⟩ := p
    simp only at ht
    subst ht
    rfl
  · intro p t e ht hall hoc
    obtain ⟨bt, oc, tc⟩ := p
    simp only at ht hoc
    subst ht
    subst hoc
    have hb : NJA.external_indicators.any
        (fun ind => subOccurs ind.data (lowerChars t)) = false := by
      rw [List.any_eq_false]
      intro x hx
      simpa using List.all_eq_true.mp hall x hx
    simp [NJA._is_external_application, hb]
  · intro hrefs e
    rfl
  · intro src e hall
    have hb : RNAA.external_indicators.any
        (fun i => subOccurs (lowerChars i) (lowerChars src)) = false := by
      rw [List.any_eq_false]
      intro x hx
      simpa using List.all_eq_true.mp hall x hx
    simp [RNAA.check_if_external_application, hb]

/-- Witness for C6: concrete raising inputs for all five exception
paths. -/
theorem c6_classifier_exception_returns_false_witness :
    Enhanced.is_external_application "http://[x" = (false, "Error: Invalid IPv6 URL") ∧
    NJA._is_external_application
      ⟨Except.error PyExn.timeout, Except.ok [], Except.ok 0⟩ = false ∧
    NJA._is_external_application
      ⟨Except.ok "plain job page", Except.error PyExn.generic, Except.ok 0⟩ = false ∧
    RNAA.check_if_external_application (Except.error PyExn.generic)
      (Except.ok []) = false ∧
    RNAA.check_if_external_application (Except.ok "plain job page")
      (Except.error PyExn.generic) = false := by
  refine ⟨?_, ?_, ?_, ?_, ?_⟩
  · exact c6_classifier_exception_returns_false.1 "http://[x" "Invalid IPv6 URL"
      (by decide) (by decide)
  · exact c6_classifier_exception_returns_false.2.1 _ PyExn.timeout rfl
  · exact c6_classifier_exception_returns_false.2.2.1 _ "plain job page"
      PyExn.generic rfl (by decide) rfl
  · exact c6_classifier_exception_returns_false.2.2.2.1 _ PyExn.generic
  · exact c6_classifier_exception_returns_false.2.2.2.2 "plain job page"
      PyExn.generic (by decide)
/-- A concrete non-external posting for the enhanced script. -/
def sampleEJob : Enhanced.EJob :=
  { title := "Backend Dev", company := "Acme",
    url := "https://www.naukri.com/job-listings-dev-2", job_id := "2" }

/-- The same posting's page with no apply control. -/
def sampleEPageNoBtn : Enhanced.EPage :=
  { currentUrl := "https://www.naukri.com/job-listings-dev-2",
    applyButtonFound := false, formHandled := false }

/-- The same posting as scraped by `naukri_job_applier.py`. -/
def sampleNJob : NJA.NJob :=
  { title := "Backend Dev", company := "Acme", job_id := "2",
    link := "https://www.naukri.com/job-listings-dev-2" }

/-- A benign page for `naukri_job_applier.py`: plain text, no buttons,
no extra form fields. -/
def sampleNPagePlain : NJA.NPage :=
  ⟨Except.ok "job description text", Except.ok [], Except.ok 0⟩

/-- C1 counterexample: a posting that cannot be auto-applied because its
apply control is missing is NOT recorded to the shortlist in
`enhanced_naukri_applier.py` (it lands in `failed_applications`, the
shortlist stays empty) nor in `naukri_job_applier.py` (it lands in
`failed_jobs` with reason `"Apply button not found"`), refuting the
claim's `in every script`. -/
theorem c1_shortlist_counterexample :
    (Enhanced.apply_to_job {} sampleEJob sampleEPageNoBtn).1.shortlisted_jobs = [] ∧
    (Enhanced.apply_to_job {} sampleEJob sampleEPageNoBtn).1.failed_applications = [sampleEJob] ∧
    NJA.apply_to_job {} sampleNJob sampleNPagePlain ⟨false, false, false, false⟩ =
      ({ applied_jobs := [], shortlisted_jobs := [],
         failed_jobs := [(sampleNJob, "Apply button not found")] }, "failed") := by
  refine ⟨by decide, by decide, by decide⟩

/-- C1 amended: postings detected as external applications are appended
to the shortlist in every script that performs the check, and so are
postings requiring additional details; a missing apply control is
shortlisted in `apply_naukri_jobs.py`, `scripts/naukri_auto_apply.py`
and `naukri_auto_apply.py`, but in `enhanced_naukri_applier.py` and
`naukri_job_applier.py` such postings are appended to the failed lists
(`failed_applications` / `failed_jobs`) instead, leaving the shortlist
unchanged. -/
theorem c1_shortlist_amended :
    (∀ st (job : Enhanced.EJob) page, job.is_external = true →
      job ∈ (Enhanced.apply_to_job st job page).1.shortlisted_jobs) ∧
    (∀ st (job : Enhanced.EJob) page, job.is_external = false →
      (Enhanced.is_external_application page.currentUrl).1 = true →
      (Enhanced.apply_to_job st job page).2.1 ∈
        (Enhanced.apply_to_job st job page).1.shortlisted_jobs ∧
      (Enhanced.apply_to_job st job page).2.1.is_external = true) ∧
    (∀ st (job : Enhanced.EJob) page, job.is_external = false →
      (Enhanced.is_external_application page.currentUrl).1 = false →
      page.applyButtonFound = false →
      job ∈ (Enhanced.apply_to_job st job page).1.failed_applications ∧
      (Enhanced.apply_to_job st job page).1.shortlisted_jobs = st.shortlisted_jobs) ∧
    (∀ st job p (a : NJA.NAttempt), a.openRaises = false →
      NJA._is_external_application p = true →
      (job, "External application required") ∈
        (NJA.apply_to_job st job p a).1.shortlisted_jobs) ∧
    (∀ st job p (a : NJA.NAttempt), a.openRaises = false →
      NJA._is_external_application p = false →
      NJA._requires_additional_details p = true →
      (job, "Additional details required") ∈
        (NJA.apply_to_job st job p a).1.shortlisted_jobs) ∧
    (∀ st job p (a : NJA.NAttempt), a.openRaises = false →
      NJA._is_external_application p = false →
      NJA._requires_additional_details p = false →
      a.applyButton = false →
      (job, "Apply button not found") ∈ (NJA.apply_to_job st job p a).1.failed_jobs ∧
      (NJA.apply_to_job st job p a).1.shortlisted_jobs = st.shortlisted_jobs) ∧
    (∀ (c : ANJ.ACard) applied short, c.linkElOk = true →
      (c.applyBtnFound = false ∨ c.submitOk = false) →
      ANJ.cards_loop [c] applied short =
        ([Ev.apply], Except.ok (applied, short ++ [c.link]))) ∧
    (∀ st t c l, SNAA.attempt_apply_on_detail st t c l [] =
      ({ st with shortlisted_rows :=
          st.shortlisted_rows ++ [(t, c, l, "No direct Apply button found")] },
        false)) ∧
    (∀ st t c l (b : SNAA.SBtn) rest,
      subOccurs "company".data (lowerChars b.txt) = false →
      subOccurs "site".data (lowerChars b.txt) = false →
      subOccurs "external".data (lowerChars b.txt) = false →
      b.clickOk = true →
      SNAA._detect_external_or_detailed_apply b.ctxAfter ≠ "" →
      SNAA.attempt_apply_on_detail st t c l (b :: rest) =
        ({ st with shortlisted_rows := st.shortlisted_rows ++
            [(t, c, l, SNAA._detect_external_or_detailed_apply b.ctxAfter)] },
          false)) ∧
    (∀ st visited (card : SNAA.SCard) maxJobs,
      visited.contains card.link = false → card.openOk = false →
      (SNAA.cards_loop st visited [card] maxJobs).state.shortlisted_rows =
        st.shortlisted_rows ++
          [(card.title, card.company, card.link, "Failed to open job detail")]) ∧
    (∀ st (job : RNAA.RJob) p, st.applied_jobs.contains job.job_id = false →
      RNAA.check_if_external_application p.pageSource p.applyHrefs = true →
      (job, "External application required") ∈
        (RNAA.apply_to_job st job p).1.shortlisted_jobs) ∧
    (∀ st (job : RNAA.RJob) p, st.applied_jobs.contains job.job_id = false →
      RNAA.check_if_external_application p.pageSource p.applyHrefs = false →
      RNAA.has_application_questions p.pageSource p.formCount = true →
      (job, "Additional questions/details required") ∈
        (RNAA.apply_to_job st job p).1.shortlisted_jobs) ∧
    (∀ st (job : RNAA.RJob) p, st.applied_jobs.contains job.job_id = false →
      RNAA.check_if_external_application p.pageSource p.applyHrefs = false →
      RNAA.has_application_questions p.pageSource p.formCount = false →
      p.applyButtonFound = false →
      (job, "Application failed: No apply button found") ∈
        (RNAA.apply_to_job st job p).1.shortlisted_jobs) := by
  refine ⟨?_, ?_, ?_, ?_, ?_, ?_, ?_, ?_, ?_, ?_, ?_, ?_, ?_⟩
  · intro st job page hext
    simp [Enhanced.apply_to_job, hext]
  · intro st job page hext hurl
    simp [Enhanced.apply_to_job, hext, hurl]
  · intro st job page hext hurl hbtn
    simp [Enhanced.apply_to_job, hext, hurl, hbtn]
  · intro st job p a hop hext
    simp [NJA.apply_to_job, NJA.apply_to_job_body, hop, hext]
  · intro st job p a hop hext hdet
    simp [NJA.apply_to_job, NJA.apply_to_job_body, hop, hext, hdet]
  · intro st job p a hop hext hdet hbtn
    simp [NJA.apply_to_job, NJA.apply_to_job_body, hop, hext, hdet, hbtn]
  · intro c applied short hlink hfail
    rcases hfail with hb | hs
    · simp [ANJ.cards_loop, hlink, hb]
    · cases hb : c.applyBtnFound with
      | false => simp [ANJ.cards_loop, hlink, hb]
      | true => simp [ANJ.cards_loop, hlink, hb, hs]
  · intro st t c l
    rfl
  · intro st t c l b rest h1 h2 h3 hclick hreason
    simp [SNAA.attempt_apply_on_detail, h1, h2, h3, hclick, hreason]
  · intro st visited card maxJobs hvis hopen
    have hvis2 : card.link ∉ visited := by simpa using hvis
    simp [SNAA.cards_loop, hvis2, hopen]
  · intro st job p hskip hext
    have hskip2 : job.job_id ∉ st.applied_jobs := by simpa using hskip
    simp [RNAA.apply_to_job, hskip2, hext]
  · intro st job p hskip hext hq
    have hskip2 : job.job_id ∉ st.applied_jobs := by simpa using hskip
    simp [RNAA.apply_to_job, hskip2, hext, hq]
  · intro st job p hskip hext hq hbtn
    have hskip2 : job.job_id ∉ st.applied_jobs := by simpa using hskip
    simp [RNAA.apply_to_job, hskip2, hext, hq, hbtn]

/-- A posting already flagged external for the enhanced script. -/
def sampleEJobExt : Enhanced.EJob :=
  { sampleEJob with
    is_external := true
    external_reason := "External domain: careers.example.com" }

/-- A page whose body announces an external application, for
`naukri_job_applier.py`. -/
def sampleNPageExt : NJA.NPage :=
  ⟨Except.ok "Please apply on company site to continue", Except.ok [], Except.ok 0⟩

/-- A card whose detail page fails to open, for
`scripts/naukri_auto_apply.py`. -/
def sampleSCardNoOpen : SNAA.SCard :=
  { title := "Backend Dev", company := "Acme",
    link := "https://www.naukri.com/j1", openOk := false,
    attemptRaises := false, buttons := [] }

/-- The sample posting as seen by `naukri_auto_apply.py`. -/
def sampleRJob : RNAA.RJob :=
  { job_id := "2", title := "Backend Dev", company := "Acme",
    url := "https://www.naukri.com/job-listings-dev-2" }

/-- A page source announcing an external application, for
`naukri_auto_apply.py`. -/
def sampleRPageExt : RNAA.RPage :=
  { pageSource := Except.ok "Apply on company website",
    applyHrefs := Except.ok [], formCount := Except.ok 0,
    applyButtonFound := false, afterClickSource := "" }

/-- Witness for the amended C1 at concrete inputs: an external posting is
shortlisted by the enhanced script, by `naukri_job_applier.py` and by
`naukri_auto_apply.py`, and a card that fails to open is shortlisted by
`scripts/naukri_auto_apply.py`. -/
theorem c1_shortlist_amended_witness :
    sampleEJobExt ∈
      (Enhanced.apply_to_job {} sampleEJobExt sampleEPageNoBtn).1.shortlisted_jobs ∧
    (sampleNJob, "External application required") ∈
      (NJA.apply_to_job {} sampleNJob sampleNPageExt
        ⟨false, true, false, true⟩).1.shortlisted_jobs ∧
    (SNAA.cards_loop {} [] [sampleSCardNoOpen] 40).state.shortlisted_rows =
      [("Backend Dev", "Acme", "https://www.naukri.com/j1", "Failed to open job detail")] ∧
    (sampleRJob, "External application required") ∈
      (RNAA.apply_to_job {} sampleRJob sampleRPageExt).1.shortlisted_jobs := by
  refine ⟨?_, ?_, ?_, ?_⟩
  · exact c1_shortlist_amended.1 {} sampleEJobExt sampleEPageNoBtn rfl
  · exact c1_shortlist_amended.2.2.2.1 {} sampleNJob sampleNPageExt
      ⟨false, true, false, true⟩ rfl (by decide)
  · exact (c1_shortlist_amended.2.2.2.2.2.2.2.2.2.1 {} [] sampleSCardNoOpen 40
      rfl rfl).trans rfl
  · exact c1_shortlist_amended.2.2.2.2.2.2.2.2.2.2.1 {} sampleRJob sampleRPageExt
      rfl (by decide)
/-- The observations of a single posting that the three
external/manual-application classifiers read: the enhanced classifier
sees only the URL; `naukri_job_applier`'s sees the body text and the
Apply buttons' `onclick` attributes; the `scripts/naukri_auto_apply`
classifier sees the URLs of the pages open after the click, the snapshot
taken before it, and the active page's form-input count. -/
structure Posting where
  url : String
  bodyText : String
  applyOnclicks : List String
  textInputCount : Nat
  openPageUrls : List String
  beforeUrls : List String
  activeFormInputs : Nat
deriving DecidableEq, Repr

/-- Manual-application verdict of the enhanced URL-based classifier. -/
def enhancedManual (p : Posting) : Bool :=
  (Enhanced.is_external_application p.url).1

/-- Manual-application verdict of `naukri_job_applier`'s page-text
classifier on the same posting. -/
def njaManual (p : Posting) : Bool :=
  NJA._is_external_application
    ⟨Except.ok p.bodyText, Except.ok p.applyOnclicks, Except.ok p.textInputCount⟩

/-- Manual-application verdict of `scripts/naukri_auto_apply`'s
open-pages/form-count classifier on the same posting (a non-empty reason
string means manual). -/
def snaaManual (p : Posting) : Bool :=
  SNAA._detect_external_or_detailed_apply
    ⟨p.openPageUrls, p.beforeUrls, Except.ok p.activeFormInputs⟩ != ""

/-- A posting on which the classifiers disagree: the URL is a plain
naukri posting URL, but the body text says to apply on the company
site. -/
def samplePostingDisagree : Posting :=
  { url := "https://www.naukri.com/job-listings-dev-2",
    bodyText := "Please apply on company site to continue",
    applyOnclicks := [], textInputCount := 0,
    openPageUrls := ["https://www.naukri.com/job-listings-dev-2"],
    beforeUrls := [], activeFormInputs := 0 }

/-- C3 counterexample: the three classifiers do not compute the same
classification — on a posting with a plain naukri URL whose body text
says to apply on the company site, the page-text classifier of
`naukri_job_applier.py` says manual while the enhanced URL classifier
and the open-pages classifier say auto-appliable. -/
theorem c3_classifier_agreement_counterexample :
    enhancedManual samplePostingDisagree = false ∧
    njaManual samplePostingDisagree = true ∧
    snaaManual samplePostingDisagree = false := by
  refine ⟨by decide, by decide, by decide⟩

/-- C3 amended: the three classifiers are independent heuristics over
different observations and can disagree; they do agree (all reporting
auto-appliable) on any posting that is benign for every observation
each of them reads: URL passing the enhanced checks, body text free of
external indicators, no external/redirect onclick handler, every open
page about:blank, previously open, or on naukri.com, and fewer than 3
active form inputs. -/
theorem c3_classifier_agreement_amended (p : Posting)
    (h1 : (Enhanced.is_external_application p.url).1 = false)
    (h2 : NJA.external_indicators.all
      (fun i => !subOccurs i.data (lowerChars p.bodyText)) = true)
    (h3 : p.applyOnclicks.all
      (fun oc => !subOccurs "external".data (lowerChars oc) &&
                 !subOccurs "redirect".data (lowerChars oc)) = true)
    (h4 : p.openPageUrls.all
      (fun url => prefAt "about:blank".data url.data ||
                  p.beforeUrls.contains url ||
                  subOccurs "naukri.com".data url.data) = true)
    (h5 : p.activeFormInputs < 3) :
    enhancedManual p = false ∧ njaManual p = false ∧ snaaManual p = false := by
  refine ⟨h1, ?_, ?_⟩
  · have hb : NJA.external_indicators.any
        (fun ind => subOccurs ind.data (lowerChars p.bodyText)) = false := by
      rw [List.any_eq_false]
      intro x hx
      simpa using List.all_eq_true.mp h2 x hx
    have hoc : p.applyOnclicks.any
        (fun oc => subOccurs "external".data (lowerChars oc) ||
                   subOccurs "redirect".data (lowerChars oc)) = false := by
      rw [List.any_eq_false]
      intro x hx
      have := List.all_eq_true.mp h3 x hx
      simp only [Bool.and_eq_true, Bool.not_eq_true'] at this
      simp [this.1, this.2]
    simp [njaManual, NJA._is_external_application, hb, hoc]
  · have hpages : p.openPageUrls.any
        (fun url => !prefAt "about:blank".data url.data &&
                    !p.beforeUrls.contains url &&
                    !subOccurs "naukri.com".data url.data) = false := by
      rw [List.any_eq_false]
      intro x hx
      have hor := List.all_eq_true.mp h4 x hx
      cases ha : prefAt "about:blank".data x.data <;>
        cases hb : p.beforeUrls.contains x <;>
          cases hc : subOccurs "naukri.com".data x.data <;>
            simp_all
    have hform : ¬ p.activeFormInputs ≥ 3 := by omega
    simp only [snaaManual, SNAA._detect_external_or_detailed_apply]
    rw [hpages]
    simp [hform]

/-- A posting benign for all three classifiers. -/
def samplePostingBenign : Posting :=
  { url := "https://www.naukri.com/job-listings-dev-2",
    bodyText := "standard job description",
    applyOnclicks := ["submitQuickApply()"], textInputCount := 2,
    openPageUrls := ["https://www.naukri.com/job-listings-dev-2"],
    beforeUrls := [], activeFormInputs := 2 }

/-- Witness for the amended C3: on the concrete benign posting all three
classifiers return auto-appliable. -/
theorem c3_classifier_agreement_amended_witness :
    enhancedManual samplePostingBenign = false ∧
    njaManual samplePostingBenign = false ∧
    snaaManual samplePostingBenign = false :=
  c3_classifier_agreement_amended samplePostingBenign
    (by decide) (by decide) (by decide) (by decide) (by decide)
/-- Two concrete cards for `apply_naukri_jobs.py`: the first one's link
element lookup raises, the second would quick-apply cleanly. -/
def sampleACardBadLink : ANJ.ACard :=
  { linkElOk := false, link := "https://www.naukri.com/j1",
    applyBtnFound := true, submitOk := true }

/-- A card that quick-applies cleanly. -/
def sampleACardGood : ANJ.ACard :=
  { linkElOk := true, link := "https://www.naukri.com/j2",
    applyBtnFound := true, submitOk := true }

/-- C7 counterexample: in `apply_naukri_jobs.py` the card-link lookup
runs outside the per-job `try`, so when the first card's link element
raises, `search_and_apply` aborts with the exception: no apply event is
emitted, the second card — which on its own would be applied — is never
processed, and `main` propagates the exception. -/
theorem c7_per_job_exception_counterexample :
    ANJ.cards_loop [sampleACardBadLink, sampleACardGood] 0 [] =
      ([], Except.error PyExn.noSuchElement) ∧
    ANJ.cards_loop [sampleACardGood] 0 [] = ([Ev.apply], Except.ok (1, [])) ∧
    ANJ.main true [[sampleACardBadLink, sampleACardGood]] =
      ([Ev.login, Ev.search], Except.error PyExn.noSuchElement) := by
  refine ⟨by decide, by decide, by decide⟩

/-- C7 amended: in `naukri_job_applier.py` an exception escaping the body
of `apply_to_job` is caught, the job is recorded as failed and the result
is `'failed'`; in `scripts/naukri_auto_apply.py` an exception escaping
the apply attempt shortlists the card with `"Error during apply"` and the
loop continues with the remaining cards; in `apply_naukri_jobs.py` only
the apply attempt is guarded — runs in which every card's link element
resolves never abort, but an exception in the link lookup itself
propagates (see the counterexample). -/
theorem c7_per_job_exception_amended :
    (∀ st job p (a : NJA.NAttempt) e,
      NJA.apply_to_job_body st job p a = Except.error e →
      NJA.apply_to_job st job p a =
        ({ st with failed_jobs := st.failed_jobs ++ [(job, "Exception")] }, "failed")) ∧
    (∀ st visited (card : SNAA.SCard) rest,
      visited.contains card.link = false → card.openOk = true →
      card.attemptRaises = true →
      SNAA.cards_loop st visited (card :: rest) 0 =
        SNAA.cards_loop
          { st with shortlisted_rows := st.shortlisted_rows ++
              [(card.title, card.company, card.link, "Error during apply")] }
          (visited ++ [card.link]) rest 0) ∧
    (∀ (cards : List ANJ.ACard) applied short,
      (∀ c ∈ cards, c.linkElOk = true) →
      ∃ r, (ANJ.cards_loop cards applied short).2 = Except.ok r) := by
  refine ⟨?_, ?_, ?_⟩
  · intro st job p a e hbody
    simp [NJA.apply_to_job, hbody]
  · intro st visited card rest hvis hopen hraise
    have hvis2 : card.link ∉ visited := by simpa using hvis
    simp [SNAA.cards_loop, hvis2, hopen, hraise]
  · intro cards applied short hall
    induction cards generalizing applied short with
    | nil => exact ⟨(applied, short), rfl⟩
    | cons c rest ih =>
      have hc : c.linkElOk = true := hall c (List.mem_cons_self c rest)
      have hrest : ∀ x ∈ rest, x.linkElOk = true :=
        fun x hx => hall x (List.mem_cons_of_mem c hx)
      cases hb : c.applyBtnFound with
      | false =>
        obtain ⟨r, hr⟩ := ih applied (short ++ [c.link]) hrest
        exact ⟨r, by simp [ANJ.cards_loop, hc, hb, hr]⟩
      | true =>
        cases hs : c.submitOk with
        | false =>
          obtain ⟨r, hr⟩ := ih applied (short ++ [c.link]) hrest
          exact ⟨r, by simp [ANJ.cards_loop, hc, hb, hs, hr]⟩
        | true =>
          obtain ⟨r, hr⟩ := ih (applied + 1) short hrest
          exact ⟨r, by simp [ANJ.cards_loop, hc, hb, hs, hr]⟩

/-- A card whose apply attempt raises, for `scripts/naukri_auto_apply.py`. -/
def sampleSCardRaise : SNAA.SCard :=
  { title := "Backend Dev", company := "Acme",
    link := "https://www.naukri.com/j4", openOk := true,
    attemptRaises := true, buttons := [] }

/-- Witness for the amended C7 at concrete inputs. -/
theorem c7_per_job_exception_amended_witness :
    NJA.apply_to_job {} sampleNJob sampleNPagePlain ⟨true, false, false, false⟩ =
      ({ applied_jobs := [], shortlisted_jobs := [],
         failed_jobs := [(sampleNJob, "Exception")] }, "failed") ∧
    SNAA.cards_loop {} [] [sampleSCardRaise] 0 =
      ⟨{ applied_rows := [],
         shortlisted_rows :=
           [("Backend Dev", "Acme", "https://www.naukri.com/j4", "Error during apply")] },
        ["https://www.naukri.com/j4"], false⟩ ∧
    (ANJ.cards_loop [sampleACardGood] 0 []).2 = Except.ok (1, []) := by
  have h1 := c7_per_job_exception_amended.1 {} sampleNJob sampleNPagePlain
    ⟨true, false, false, false⟩ PyExn.generic rfl
  have h2 := c7_per_job_exception_amended.2.1 {} [] sampleSCardRaise [] rfl rfl rfl
  obtain ⟨r, hr⟩ := c7_per_job_exception_amended.2.2 [sampleACardGood] 0 [] (by decide)
  exact ⟨h1, h2.trans (by decide), by decide⟩
/-- Any trace that starts with a `login` event satisfies
`loginBeforeSearch`. -/
theorem loginBeforeSearch_of_login_head (t : List Ev) :
    loginBeforeSearch (Ev.login :: t) := by
  intro pre post h
  cases pre with
  | nil =>
    rw [List.nil_append] at h
    injection h with h1 _
    exact Ev.noConfusion h1
  | cons a pre2 =>
    rw [List.cons_append] at h
    injection h with h1 _
    rw [← h1]
    exact List.mem_cons_self _ _

/-- Any trace whose first two events are `login`, `search` satisfies
`searchBeforeApply`. -/
theorem searchBeforeApply_of_login_search_head (t : List Ev) :
    searchBeforeApply (Ev.login :: Ev.search :: t) := by
  intro pre post h
  cases pre with
  | nil =>
    rw [List.nil_append] at h
    injection h with h1 _
    exact Ev.noConfusion h1
  | cons a pre2 =>
    rw [List.cons_append] at h
    injection h with h1 h2
    cases pre2 with
    | nil =>
      rw [List.nil_append] at h2
      injection h2 with h3 _
      exact Ev.noConfusion h3
    | cons b pre3 =>
      rw [List.cons_append] at h2
      injection h2 with h3 _
      rw [← h3]
      exact List.mem_cons_of_mem _ (List.mem_cons_self _ _)

/-- The one-event trace of a failed login satisfies `searchBeforeApply`
(it has no apply event at all). -/
theorem searchBeforeApply_of_login_only : searchBeforeApply [Ev.login] := by
  intro pre post h
  cases pre with
  | nil =>
    rw [List.nil_append] at h
    injection h with h1 _
    exact Ev.noConfusion h1
  | cons a pre2 =>
    rw [List.cons_append] at h
    injection h with _ h2
    cases pre2 with
    | nil => simp at h2
    | cons b pre3 => simp at h2

/-- The trace emitted by `ANJ.search_and_apply` is empty or starts with a
`search` event. -/
theorem anj_search_trace_shape (kws : List (List ANJ.ACard)) (applied : Nat)
    (short : List String) :
    (ANJ.search_and_apply kws applied short).1 = [] ∨
    ∃ t, (ANJ.search_and_apply kws applied short).1 = Ev.search :: t := by
  cases kws with
  | nil => exact Or.inl rfl
  | cons kw rest =>
    right
    simp only [ANJ.search_and_apply]
    cases hr : (ANJ.cards_loop kw applied short).2 with
    | error e => exact ⟨_, rfl⟩
    | ok pr =>
      obtain ⟨a, s⟩ := pr
      exact ⟨_, rfl⟩

/-- C8: in every execution of each script's main routine the login step
precedes any job search and a search precedes any application attempt;
in `naukri_job_applier.py` a `False` from `login()` ends the run with no
search and no application (the run result is the initial state, zero
applications, zero pages, and a login-only trace). -/
theorem c8_login_search_apply_order :
    (∀ loginOk pages maxApps maxPages,
      loginBeforeSearch (NJA.run loginOk pages maxApps maxPages).events ∧
      searchBeforeApply (NJA.run loginOk pages maxApps maxPages).events) ∧
    (∀ loginOk jobs,
      loginBeforeSearch (Enhanced.run loginOk jobs).2.2 ∧
      searchBeforeApply (Enhanced.run loginOk jobs).2.2) ∧
    (∀ loginOk kws,
      loginBeforeSearch (ANJ.main loginOk kws).1 ∧
      searchBeforeApply (ANJ.main loginOk kws).1) ∧
    (∀ pages maxApps maxPages,
      NJA.run false pages maxApps maxPages = ⟨{}, 0, 0, [Ev.login]⟩) := by
  refine ⟨?_, ?_, ?_, ?_⟩
  · intro loginOk pages maxApps maxPages
    cases loginOk with
    | false =>
      exact ⟨loginBeforeSearch_of_login_head [], searchBeforeApply_of_login_only⟩
    | true =>
      constructor
      · exact loginBeforeSearch_of_login_head _
      · exact searchBeforeApply_of_login_search_head _
  · intro loginOk jobs
    cases loginOk with
    | false =>
      exact ⟨loginBeforeSearch_of_login_head [], searchBeforeApply_of_login_only⟩
    | true =>
      exact ⟨loginBeforeSearch_of_login_head _, searchBeforeApply_of_login_search_head _⟩
  · intro loginOk kws
    cases loginOk with
    | false =>
      exact ⟨loginBeforeSearch_of_login_head [], searchBeforeApply_of_login_only⟩
    | true =>
      constructor
      · exact loginBeforeSearch_of_login_head _
      · rcases anj_search_trace_shape kws 0 [] with h | ⟨t, h⟩
        · show searchBeforeApply (Ev.login :: (ANJ.search_and_apply kws 0 []).1)
          rw [h]
          exact searchBeforeApply_of_login_only
        · show searchBeforeApply (Ev.login :: (ANJ.search_and_apply kws 0 []).1)
          rw [h]
          exact searchBeforeApply_of_login_search_head t
  · intro pages maxApps maxPages
    rfl

/-- Witness for C8 at concrete inputs: a successful-login run of
`naukri_job_applier.py` with one page of one job satisfies both ordering
predicates, and a failed-login run produces only the login event. -/
theorem c8_login_search_apply_order_witness :
    loginBeforeSearch
      (NJA.run true [[(sampleNJob, sampleNPagePlain, ⟨false, true, false, true⟩)]]
        50 10).events ∧
    searchBeforeApply
      (NJA.run true [[(sampleNJob, sampleNPagePlain, ⟨false, true, false, true⟩)]]
        50 10).events ∧
    NJA.run false [[(sampleNJob, sampleNPagePlain, ⟨false, true, false, true⟩)]]
        50 10 = ⟨{}, 0, 0, [Ev.login]⟩ :=
  ⟨(c8_login_search_apply_order.1 true
      [[(sampleNJob, sampleNPagePlain, ⟨false, true, false, true⟩)]] 50 10).1,
   (c8_login_search_apply_order.1 true
      [[(sampleNJob, sampleNPagePlain, ⟨false, true, false, true⟩)]] 50 10).2,
   c8_login_search_apply_order.2.2.2
      [[(sampleNJob, sampleNPagePlain, ⟨false, true, false, true⟩)]] 50 10⟩
/-- Folding `save_shortlist` from an existing file appends every URL of
every call as a one-column row, in call order, and never writes another
header. -/
theorem save_shortlist_foldl_some (rs : List (List String))
    (calls : List (List String)) :
    List.foldl (fun f urls => ANJ.save_shortlist urls f) (some rs) calls =
      some (rs ++ (calls.flatten).map (fun u => [u])) := by
  induction calls generalizing rs with
  | nil => simp
  | cons c rest ih =>
    rw [List.foldl_cons]
    by_cases hc : c = []
    · subst hc
      rw [show ANJ.save_shortlist [] (some rs) = some rs from rfl, ih]
      simp
    · have hne : c.isEmpty = false := by simpa using hc
      rw [show ANJ.save_shortlist c (some rs) = some (rs ++ c.map (fun u => [u])) by
        simp [ANJ.save_shortlist, hne]]
      rw [ih]
      simp

/-- Folding `write_csv` from an existing file appends every row of every
call, in call order, and never writes another header. -/
theorem write_csv_foldl_some (headers : List String)
    (cur : List (List String)) (calls : List (List (List String))) :
    List.foldl (fun f rows => SNAA.write_csv headers rows f) (some cur) calls =
      some (cur ++ calls.flatten) := by
  induction calls generalizing cur with
  | nil => simp
  | cons c rest ih =>
    rw [List.foldl_cons,
      show SNAA.write_csv headers c (some cur) = some (cur ++ c) from rfl, ih]
    simp

/-- C9: `save_shortlist` and `write_csv` write their header row exactly
when the target file does not exist at call time and otherwise only
append data rows, so any sequence of calls starting from a non-existent
file yields exactly one header row followed by every row passed, in call
order; `save_shortlist` called with an empty list neither creates nor
modifies the file. -/
theorem c9_csv_header_exactly_once :
    (∀ calls : List (List String),
      List.foldl (fun f urls => ANJ.save_shortlist urls f) none calls =
        if calls.all List.isEmpty = true then none
        else some (["Job URL"] :: (calls.flatten).map (fun u => [u]))) ∧
    (∀ (headers : List String) (calls : List (List (List String))),
      List.foldl (fun f rows => SNAA.write_csv headers rows f) none calls =
        if calls.isEmpty = true then none
        else some (headers :: calls.flatten)) ∧
    (∀ urls (f : ANJ.FileSt), urls.isEmpty = true → ANJ.save_shortlist urls f = f) ∧
    (∀ urls, ANJ.save_shortlist urls none =
      if urls.isEmpty = true then none
      else some (["Job URL"] :: urls.map (fun u => [u]))) ∧
    (∀ urls rows, ANJ.save_shortlist urls (some rows) =
      if urls.isEmpty = true then some rows
      else some (rows ++ urls.map (fun u => [u]))) ∧
    (∀ headers rows, SNAA.write_csv headers rows none = some (headers :: rows)) ∧
    (∀ headers rows cur, SNAA.write_csv headers rows (some cur) = some (cur ++ rows)) := by
  refine ⟨?_, ?_, ?_, ?_, ?_, ?_, ?_⟩
  · intro calls
    induction calls with
    | nil => simp
    | cons c rest ih =>
      rw [List.foldl_cons]
      by_cases hc : c = []
      · subst hc
        rw [show ANJ.save_shortlist [] none = none from rfl, ih]
        simp
      · have hne : c.isEmpty = false := by simpa using hc
        rw [show ANJ.save_shortlist c none =
            some ([["Job URL"]] ++ c.map (fun u => [u])) by
          simp [ANJ.save_shortlist, hne]]
        rw [save_shortlist_foldl_some]
        have hall : (c :: rest).all List.isEmpty = false := by
          rw [List.all_eq_false]
          exact ⟨c, List.mem_cons_self _ _, by simpa using hc⟩
        rw [hall]
        simp
  · intro headers calls
    cases calls with
    | nil => simp
    | cons c rest =>
      rw [List.foldl_cons,
        show SNAA.write_csv headers c none = some ([headers] ++ c) from rfl,
        write_csv_foldl_some]
      simp
  · intro urls f hemp
    simp [ANJ.save_shortlist, hemp]
  · intro urls
    cases hemp : urls.isEmpty with
    | true => simp [ANJ.save_shortlist, hemp]
    | false => simp [ANJ.save_shortlist, hemp]
  · intro urls rows
    cases hemp : urls.isEmpty with
    | true => simp [ANJ.save_shortlist, hemp]
    | false => simp [ANJ.save_shortlist, hemp]
  · intro headers rows
    rfl
  · intro headers rows cur
    rfl

/-- Witness for C9: an empty `save_shortlist` call leaves an existing
file untouched, and a concrete call sequence produces one header plus
all URLs in order. -/
theorem c9_csv_header_exactly_once_witness :
    ANJ.save_shortlist [] (some [["Job URL"], ["u1"]]) = some [["Job URL"], ["u1"]] ∧
    List.foldl (fun f urls => ANJ.save_shortlist urls f) none
        [["u1"], [], ["u2", "u3"]] =
      some [["Job URL"], ["u1"], ["u2"], ["u3"]] := by
  have h1 := c9_csv_header_exactly_once.2.2.1 []
    (some [["Job URL"], ["u1"]]) rfl
  have h2 := c9_csv_header_exactly_once.1 [["u1"], [], ["u2", "u3"]]
  exact ⟨h1, h2.trans (by decide)⟩
/-- A second card that fails to open, with a distinct link. -/
def sampleSCardNoOpen2 : SNAA.SCard :=
  { title := "Java Dev", company := "Globex",
    link := "https://www.naukri.com/j5", openOk := false,
    attemptRaises := false, buttons := [] }

/-- C10 counterexample: with `max_jobs = 1`, two cards that both fail to
open are both shortlisted — the `continue` of the goto-failure path
skips the `max_jobs` check, so the function does not return when the row
total reaches `max_jobs` and the total exceeds it. -/
theorem c10_run_limits_counterexample :
    (SNAA.search_and_apply {} []
        [[sampleSCardNoOpen, sampleSCardNoOpen2]] 1).shortlisted_rows =
      [("Backend Dev", "Acme", "https://www.naukri.com/j1", "Failed to open job detail"),
       ("Java Dev", "Globex", "https://www.naukri.com/j5", "Failed to open job detail")] ∧
    (SNAA.search_and_apply {} []
        [[sampleSCardNoOpen, sampleSCardNoOpen2]] 1).applied_rows = [] := by
  refine ⟨by decide, by decide⟩

/-- `applications_count` never exceeds `max_applications` in the inner
job loop of `NaukriJobApplier.run`. -/
theorem nja_page_loop_count_le (jobs : List (NJA.NJob × NJA.NPage × NJA.NAttempt))
    (st : NJA.NState) (cnt maxApps : Nat) (h : cnt ≤ maxApps) :
    (NJA.page_loop st jobs cnt maxApps).count ≤ maxApps := by
  induction jobs generalizing st cnt with
  | nil => simpa [NJA.page_loop] using h
  | cons j rest ih =>
    obtain ⟨job, p, a⟩ := j
    simp only [NJA.page_loop]
    by_cases hge : cnt ≥ maxApps
    · simpa [hge] using h
    · rw [if_neg hge]
      by_cases hskip : st.applied_jobs.any (fun j => j.job_id == job.job_id) = true
      · rw [if_pos hskip]
        exact ih st cnt h
      · rw [if_neg hskip]
        by_cases happ : (NJA.apply_to_job st job p a).2 == "applied"
        · simp only [happ, if_true]
          exact ih _ _ (by omega)
        · simp only [happ, if_false]
          exact ih _ _ h

/-- The page loop of `NaukriJobApplier.run` keeps `applications_count`
within `max_applications` and processes at most `max_pages` pages. -/
theorem nja_run_loop_bounds (pages : List (List (NJA.NJob × NJA.NPage × NJA.NAttempt)))
    (st : NJA.NState) (cnt pc maxApps maxPages : Nat)
    (h1 : cnt ≤ maxApps) (h2 : pc ≤ maxPages) :
    (NJA.run_loop st pages cnt pc maxApps maxPages).count ≤ maxApps ∧
    (NJA.run_loop st pages cnt pc maxApps maxPages).pagesDone ≤ maxPages := by
  induction pages generalizing st cnt pc with
  | nil => exact ⟨h1, h2⟩
  | cons pg rest ih =>
    simp only [NJA.run_loop]
    by_cases hcond : cnt < maxApps ∧ pc < maxPages
    · rw [if_pos hcond]
      exact ih _ _ _ (nja_page_loop_count_le pg st cnt maxApps (le_of_lt hcond.1))
        (by omega)
    · rw [if_neg hcond]
      exact ⟨h1, h2⟩

/-- In `NaukriJobApplier.apply_to_job` the in-memory applied list grows
by exactly the job when the result is `'applied'` and is unchanged
otherwise. -/
theorem nja_apply_to_job_applied (st : NJA.NState) (job : NJA.NJob)
    (p : NJA.NPage) (a : NJA.NAttempt) :
    ((NJA.apply_to_job st job p a).2 = "applied" ∧
     (NJA.apply_to_job st job p a).1.applied_jobs = st.applied_jobs ++ [job]) ∨
    ((NJA.apply_to_job st job p a).2 ≠ "applied" ∧
     (NJA.apply_to_job st job p a).1.applied_jobs = st.applied_jobs) := by
  cases ho : a.openRaises <;> cases he : NJA._is_external_application p <;>
    cases hd : NJA._requires_additional_details p <;> cases hb : a.applyButton <;>
      cases hc : a.clickRaises <;> cases hp : a.popupOk <;>
        simp [NJA.apply_to_job, NJA.apply_to_job_body, ho, he, hd, hb, hc, hp]

/-- Through the page loop the length of the applied list tracks
`applications_count`. -/
theorem nja_page_loop_applied_len
    (jobs : List (NJA.NJob × NJA.NPage × NJA.NAttempt))
    (st : NJA.NState) (cnt maxApps : Nat)
    (hinv : st.applied_jobs.length = cnt) :
    (NJA.page_loop st jobs cnt maxApps).state.applied_jobs.length =
      (NJA.page_loop st jobs cnt maxApps).count := by
  induction jobs generalizing st cnt with
  | nil => simpa [NJA.page_loop] using hinv
  | cons j rest ih =>
    obtain ⟨job, p, a⟩ := j
    simp only [NJA.page_loop]
    by_cases hge : cnt ≥ maxApps
    · simpa [hge] using hinv
    · rw [if_neg hge]
      by_cases hskip : st.applied_jobs.any (fun j => j.job_id == job.job_id) = true
      · rw [if_pos hskip]
        exact ih st cnt hinv
      · rw [if_neg hskip]
        rcases nja_apply_to_job_applied st job p a with ⟨hres, happ⟩ | ⟨hres, happ⟩
        · have hbeq : ((NJA.apply_to_job st job p a).2 == "applied") = true := by
            simp [hres]
          simp only [hbeq, if_true]
          exact ih _ _ (by simp [happ, hinv])
        · have hbeq : ((NJA.apply_to_job st job p a).2 == "applied") = false := by
            simpa using hres
          simp only [hbeq, if_false]
          exact ih _ _ (by simp [happ, hinv])

/-- Through the outer page loop the length of the applied list tracks
`applications_count`. -/
theorem nja_run_loop_applied_len
    (pages : List (List (NJA.NJob × NJA.NPage × NJA.NAttempt)))
    (st : NJA.NState) (cnt pc maxApps maxPages : Nat)
    (hinv : st.applied_jobs.length = cnt) :
    (NJA.run_loop st pages cnt pc maxApps maxPages).state.applied_jobs.length =
      (NJA.run_loop st pages cnt pc maxApps maxPages).count := by
  induction pages generalizing st cnt pc with
  | nil => simpa [NJA.run_loop] using hinv
  | cons pg rest ih =>
    simp only [NJA.run_loop]
    by_cases hcond : cnt < maxApps ∧ pc < maxPages
    · rw [if_pos hcond]
      exact ih _ _ _ (nja_page_loop_applied_len pg st cnt maxApps hinv)
    · rw [if_neg hcond]
      exact hinv

/-- `applications_made` never exceeds the limit in the URL loop of
`naukri_auto_apply.py`'s `run`. -/
theorem rnaa_run_jobs_le (jobs : List (RNAA.RJob × RNAA.RPage))
    (st : RNAA.RState) (made maxApps : Nat) (h : made ≤ maxApps) :
    (RNAA.run_jobs st jobs made maxApps).2 ≤ maxApps := by
  induction jobs generalizing st made with
  | nil => simpa [RNAA.run_jobs] using h
  | cons j rest ih =>
    obtain ⟨job, p⟩ := j
    simp only [RNAA.run_jobs]
    by_cases hge : made ≥ maxApps
    · simpa [hge] using h
    · rw [if_neg hge]
      by_cases happ : (RNAA.apply_to_job st job p).2 = true
      · simp only [happ, if_true]
        exact ih _ _ (by omega)
      · simp only [happ, if_false]
        exact ih _ _ h

/-- Same bound through the location loop. -/
theorem rnaa_run_locs_le (locs : List (List (RNAA.RJob × RNAA.RPage)))
    (st : RNAA.RState) (made maxApps : Nat) (h : made ≤ maxApps) :
    (RNAA.run_locs st locs made maxApps).2 ≤ maxApps := by
  induction locs generalizing st made with
  | nil => simpa [RNAA.run_locs] using h
  | cons l rest ih =>
    simp only [RNAA.run_locs]
    by_cases hge : made ≥ maxApps
    · simpa [hge] using h
    · rw [if_neg hge]
      exact ih _ _ (rnaa_run_jobs_le l st made maxApps h)

/-- Same bound through the keyword loop. -/
theorem rnaa_run_kws_le (kws : List (List (List (RNAA.RJob × RNAA.RPage))))
    (st : RNAA.RState) (made maxApps : Nat) (h : made ≤ maxApps) :
    (RNAA.run_kws st kws made maxApps).2 ≤ maxApps := by
  induction kws generalizing st made with
  | nil => simpa [RNAA.run_kws] using h
  | cons k rest ih =>
    simp only [RNAA.run_kws]
    by_cases hge : made ≥ maxApps
    · simpa [hge] using h
    · rw [if_neg hge]
      exact ih _ _ (rnaa_run_locs_le k st made maxApps h)

/-- Number of result rows of `scripts/naukri_auto_apply.py`:
`len(applied_rows) + len(shortlisted_rows)`. -/
def snaaRows (st : SNAA.SState) : Nat :=
  st.applied_rows.length + st.shortlisted_rows.length

/-- `_attempt_apply_on_detail` appends exactly one row (applied or
shortlisted). -/
theorem snaa_attempt_rows (btns : List SNAA.SBtn) (st : SNAA.SState)
    (t c l : String) :
    snaaRows (SNAA.attempt_apply_on_detail st t c l btns).1 = snaaRows st + 1 := by
  induction btns with
  | nil =>
    simp only [SNAA.attempt_apply_on_detail, snaaRows, List.length_append,
      List.length_cons, List.length_nil]
    omega
  | cons b rest ih =>
    simp only [SNAA.attempt_apply_on_detail]
    split
    · exact ih
    · split
      · exact ih
      · split
        · simp only [snaaRows, List.length_append, List.length_cons, List.length_nil]
          omega
        · simp only [snaaRows, List.length_append, List.length_cons, List.length_nil]
          omega

/-- When every card's detail page opens, the card loop of
`search_and_apply` keeps the row total within `max_jobs`, and whenever
the loop ends without firing the `max_jobs` return the total is still
strictly below `max_jobs`. -/
theorem snaa_cards_loop_bound (cards : List SNAA.SCard) (st : SNAA.SState)
    (visited : List String) (maxJobs : Int)
    (hopen : ∀ c ∈ cards, c.openOk = true)
    (hlt : (snaaRows st : Int) < maxJobs) :
    (snaaRows (SNAA.cards_loop st visited cards maxJobs).state : Int) ≤ maxJobs ∧
    ((SNAA.cards_loop st visited cards maxJobs).returned = false →
      (snaaRows (SNAA.cards_loop st visited cards maxJobs).state : Int) < maxJobs) := by
  induction cards generalizing st visited with
  | nil =>
    exact ⟨le_of_lt hlt, fun _ => hlt⟩
  | cons card rest ih =>
    have hco : card.openOk = true := hopen card (List.mem_cons_self _ _)
    have hrest : ∀ c ∈ rest, c.openOk = true :=
      fun c hc => hopen c (List.mem_cons_of_mem _ hc)
    simp only [SNAA.cards_loop]
    by_cases hvis : visited.contains card.link = true
    · rw [if_pos hvis]
      exact ih st visited hrest hlt
    · rw [if_neg hvis, if_neg (by simp [hco])]
      set st2 :=
        if card.attemptRaises = true then
          { st with shortlisted_rows := st.shortlisted_rows ++
              [(card.title, card.company, card.link, "Error during apply")] }
        else
          (SNAA.attempt_apply_on_detail st card.title card.company card.link
            card.buttons).1 with hst2def
      have hst2 : snaaRows st2 = snaaRows st + 1 := by
        rw [hst2def]
        by_cases hr : card.attemptRaises = true
        · simp only [hr, if_true, snaaRows, List.length_append, List.length_cons,
            List.length_nil]
          omega
        · rw [if_neg hr]
          exact snaa_attempt_rows card.buttons st card.title card.company card.link
      have hle : (snaaRows st2 : Int) ≤ maxJobs := by
        rw [hst2]
        push_cast
        omega
      by_cases hchk : 0 < maxJobs ∧
          maxJobs ≤ ((st2.applied_rows.length : Int) + (st2.shortlisted_rows.length : Int))
      · rw [if_pos hchk]
        refine ⟨hle, ?_⟩
        intro hfalse
        exact absurd hfalse (by simp)
      · rw [if_neg hchk]
        have h0 : (0 : Int) < maxJobs := lt_of_le_of_lt (Int.ofNat_nonneg _) hlt
        have hlt2 : (snaaRows st2 : Int) < maxJobs := by
          rcases not_and_or.mp hchk with hx | hx
          · exact absurd h0 hx
          · have hsum : ((st2.applied_rows.length : Int) +
                (st2.shortlisted_rows.length : Int)) < maxJobs := by omega
            simpa [snaaRows] using hsum
        exact ih st2 (visited ++ [card.link]) hrest hlt2

/-- When every card of every query opens, `search_and_apply` keeps the
row total within `max_jobs`. -/
theorem snaa_search_and_apply_bound (queries : List (List SNAA.SCard))
    (st : SNAA.SState) (visited : List String) (maxJobs : Int)
    (hopen : ∀ q ∈ queries, ∀ c ∈ q, c.openOk = true)
    (hlt : (snaaRows st : Int) < maxJobs) :
    (snaaRows (SNAA.search_and_apply st visited queries maxJobs) : Int) ≤ maxJobs := by
  induction queries generalizing st visited with
  | nil => exact le_of_lt hlt
  | cons q rest ih =>
    have hq : ∀ c ∈ q, c.openOk = true := hopen q (List.mem_cons_self _ _)
    have hrest : ∀ q2 ∈ rest, ∀ c ∈ q2, c.openOk = true :=
      fun q2 h2 => hopen q2 (List.mem_cons_of_mem _ h2)
    obtain ⟨hb, hret⟩ := snaa_cards_loop_bound q st visited maxJobs hq hlt
    simp only [SNAA.search_and_apply]
    by_cases hr : (SNAA.cards_loop st visited q maxJobs).returned = true
    · rw [if_pos hr]
      exact hb
    · rw [if_neg hr]
      exact ih _ _ hrest (hret (by simpa using hr))

/-- C10 amended: in `naukri_job_applier.py` the applied count never
exceeds `max_applications`, at most `max_pages` pages are processed and
the in-memory applied list has exactly `applications_count` entries; in
`naukri_auto_apply.py` the nested loop keeps `applications_made` within
`max_applications_per_run`; in `scripts/naukri_auto_apply.py` the
`max_jobs` check runs only after a card whose detail page opened, so in
runs where every card opens the applied-plus-shortlisted total stays
within `max_jobs` (a card that fails to open bypasses the check — see
the counterexample). -/
theorem c10_run_limits_amended :
    (∀ loginOk pages maxApps maxPages,
      (NJA.run loginOk pages maxApps maxPages).count ≤ maxApps ∧
      (NJA.run loginOk pages maxApps maxPages).pagesDone ≤ maxPages ∧
      (NJA.run loginOk pages maxApps maxPages).state.applied_jobs.length =
        (NJA.run loginOk pages maxApps maxPages).count) ∧
    (∀ st kws made maxApps, made ≤ maxApps →
      (RNAA.run_kws st kws made maxApps).2 ≤ maxApps) ∧
    (∀ st visited queries (maxJobs : Int),
      (∀ q ∈ queries, ∀ c ∈ q, c.openOk = true) →
      (snaaRows st : Int) < maxJobs →
      (snaaRows (SNAA.search_and_apply st visited queries maxJobs) : Int) ≤ maxJobs) := by
  refine ⟨?_, ?_, ?_⟩
  · intro loginOk pages maxApps maxPages
    cases loginOk with
    | false => exact ⟨Nat.zero_le _, Nat.zero_le _, rfl⟩
    | true =>
      refine ⟨?_, ?_, ?_⟩
      · exact (nja_run_loop_bounds pages {} 0 0 maxApps maxPages
          (Nat.zero_le _) (Nat.zero_le _)).1
      · exact (nja_run_loop_bounds pages {} 0 0 maxApps maxPages
          (Nat.zero_le _) (Nat.zero_le _)).2
      · exact nja_run_loop_applied_len pages {} 0 0 maxApps maxPages rfl
  · intro st kws made maxApps h
    exact rnaa_run_kws_le kws st made maxApps h
  · intro st visited queries maxJobs hopen hlt
    exact snaa_search_and_apply_bound queries st visited maxJobs hopen hlt

/-- Witness for the amended C10 at concrete inputs. -/
theorem c10_run_limits_amended_witness :
    (NJA.run true [[(sampleNJob, sampleNPagePlain, ⟨false, true, false, true⟩)]]
      50 10).count ≤ 50 ∧
    (RNAA.run_kws {} [[[(sampleRJob, sampleRPageExt)]]] 0 20).2 ≤ 20 ∧
    (snaaRows (SNAA.search_and_apply {} [] [[sampleSCardRaise]] 40) : Int) ≤ 40 := by
  refine ⟨?_, ?_, ?_⟩
  · exact (c10_run_limits_amended.1 true
      [[(sampleNJob, sampleNPagePlain, ⟨false, true, false, true⟩)]] 50 10).1
  · exact c10_run_limits_amended.2.1 {} [[[(sampleRJob, sampleRPageExt)]]] 0 20
      (by omega)
  · exact c10_run_limits_amended.2.2 {} [] [[sampleSCardRaise]] 40
      (by decide) (by decide)
